import Mathlib

/-!
Shallow embedding of the Windower per-source-IP windowed statistics engine
(src/windower/packetprocessing/logger.py, streaming/statistics.py,
streaming/sampling.py, logtypes.py) and proofs about the specification
claims for it.

Modelling conventions:
* Machine integers (numpy u4/u8 fields, Python ints) are `Nat`; where the
  source performs wrapping numpy unsigned subtraction we write the wrap
  explicitly (`% 2^64`).
* IEEE floating point values are modelled as exact rationals `Rat`.  The
  one place where float division by zero is semantically relevant to a
  claim (the rate computation of `_summarize_windows`) is modelled with
  the `NpFloat` type, which mirrors IEEE zero-division results (inf, nan).
  Elsewhere a `Rat` division whose denominator is zero cannot be reached
  by the states the claims quantify over, and `Rat`'s 0-convention is kept.
  Where a claim is about rounding itself — the precision bound on the
  Welford variance, whose running fields are numpy `'f4'` (float32)
  stores — the float32 rounding is modelled exactly by `fl32`
  (round-to-nearest-even on `Rat`) and the per-packet store/read-back
  chain by `f32RunAux`.
* Calls into numeric library routines whose exact float value no claim
  depends on (`math.sqrt`, `np.log2`, `random.randint`) are abstracted as
  fields of a `NumLib` record; theorems quantify over every such record.
* Python exceptions are modelled with `Except PyError` / `Option PyError`;
  every stateful operation also returns the post-mutation state, modelling
  that mutations performed before a raise persist on the object.
* The `cachetools` TTL/LRU caches are modelled as association lists /
  membership lists without wall-clock-driven TTL expiry and without
  size-based eviction: no wall-clock time passes inside the operations the
  claims are about, and the claims quantify over states within bounds.
-/

/-- Python exception kinds raised by the embedded code paths. -/
inductive PyError where
  /-- `AttributeError`: attribute lookup on a class failed. -/
  | attributeError : PyError
  /-- Raised by `self._window_history[-self._history_min:]` in
  `Logger.end_window` (logger.py line 181): indexing the TTLCache with a
  slice object raises `TypeError` (unhashable slice; `KeyError` on
  Python ≥ 3.12, where slices are hashable).  Either way the call raises. -/
  | typeError : PyError
  /-- `IndexError`: indexing position 0 of an empty numpy array
  (`window_stats[0]` in `_compute_window_span` / `_summarize_windows`). -/
  | indexError : PyError
deriving DecidableEq, Repr

/-- An IEEE-754 style value as produced by a numpy float division:
either a finite value (modelled exactly as a rational), an infinity,
or nan.  `npDiv` below mirrors numpy division including division by 0,
which warns and yields inf/nan instead of raising. -/
inductive NpFloat where
  | fin : ℚ → NpFloat
  | inf : NpFloat
  | negInf : NpFloat
  | nan : NpFloat
deriving DecidableEq, Repr

/-- numpy float division semantics: finite quotient when the denominator is
nonzero, otherwise ±inf / nan depending on the numerator's sign. -/
def npDiv (a b : ℚ) : NpFloat :=
  if b ≠ 0 then NpFloat.fin (a / b)
  else if 0 < a then NpFloat.inf
  else if a < 0 then NpFloat.negInf
  else NpFloat.nan

/-- Abstraction of the numeric library primitives used by the source whose
float results no claim inspects: `math.sqrt`, `np.log2`, and
`random.randint(0, n)` (the reservoir sampler's random index, abstracted as
a function of its upper bound).  All theorems quantify over every `NumLib`. -/
structure NumLib where
  sqrt : ℚ → ℚ
  log2 : ℚ → ℚ
  randint : ℕ → ℕ

/-- A concrete `NumLib` instance used to evaluate the embedding at the
specific inputs of witnesses and counterexamples. -/
def testLib : NumLib :=
  { sqrt := fun _ => 0, log2 := fun _ => 0, randint := fun _ => 0 }

/-- Lookup in a Python dict modelled as an association list. -/
def assocGet {α : Type} (l : List (String × α)) (k : String) : Option α :=
  match l with
  | [] => none
  | (k', v) :: rest => if k' = k then some v else assocGet rest k

/-- `d[k] = v` on a Python dict: update the existing key in place, else
append (Python dicts preserve insertion order). -/
def assocSet {α : Type} (l : List (String × α)) (k : String) (v : α) :
    List (String × α) :=
  match l with
  | [] => [(k, v)]
  | (k', v') :: rest =>
      if k' = k then (k, v) :: rest else (k', v') :: assocSet rest k v

/-- `del d[k]` on a Python dict (dict states never hold duplicate keys, so
removing every binding of `k` coincides with removing its binding). -/
def assocErase {α : Type} (l : List (String × α)) (k : String) :
    List (String × α) :=
  l.filter (fun p => p.1 ≠ k)

/-- Membership set used for the `_ready_ips` LRU cache: `d[ip] = True`
leaves membership idempotent, `d.pop(ip, None)` removes the key. -/
def readyInsert (l : List String) (ip : String) : List String :=
  if ip ∈ l then l else l ++ [ip]

/-- `d.pop(ip, None)` on the ready set. -/
def readyErase (l : List String) (ip : String) : List String :=
  l.filter (fun x => x ≠ ip)

/-- numpy u8 (uint64) subtraction `a - b`, which wraps modulo 2^64. -/
def wrapSub64 (a b : ℕ) : ℕ :=
  (a + 2 ^ 64 - b % 2 ^ 64) % 2 ^ 64

namespace Average

/-- `Average.avg_stateless` (statistics.py lines 43-51):
`prev_avg + (new_elem_val - prev_avg) / new_elems_cnt`. -/
def avg_stateless (new_elem_val prev_avg : ℚ) (new_elems_cnt : ℕ) : ℚ :=
  prev_avg + (new_elem_val - prev_avg) / (new_elems_cnt : ℚ)

/-- The attribute names defined on class `Average` in statistics.py:
`__init__` (line 17), `process` (line 24), `get` (line 34) and
`avg_stateless` (line 43). -/
def attrs : List String :=
  ["__init__", "process", "get", "avg_stateless"]

end Average

namespace Variance

/-- `Variance.var_stateless` (statistics.py lines 89-100):
`stream_var_aux_val / (elems_cnt - 1)` if `elems_cnt > 1` else `0`. -/
def var_stateless (stream_var_aux_val : ℚ) (elems_cnt : ℕ) : ℚ :=
  if elems_cnt > 1 then stream_var_aux_val / ((elems_cnt : ℚ) - 1) else 0

/-- `Variance.var_aux_stateless` (statistics.py lines 103-120):
`prev_var_aux + (new_elem_val - prev_avg) * (new_elem_val - new_avg)`. -/
def var_aux_stateless (new_elem_val prev_var_aux prev_avg new_avg : ℚ) : ℚ :=
  prev_var_aux + (new_elem_val - prev_avg) * (new_elem_val - new_avg)

/-- The mutable state of a `Variance` object (statistics.py lines 60-65). -/
structure State where
  avg : ℚ
  elems_cnt : ℕ
  var_aux : ℚ
deriving DecidableEq, Repr

/-- `Variance.process` (statistics.py lines 68-77).  Line 76 invokes
`Average.avgStateless(...)`: the attribute name `avgStateless` is resolved
against class `Average`, whose defined attributes are `Average.attrs`
(the defined method is spelled `avg_stateless`).  When the lookup fails
the call raises `AttributeError`; the returned state is dropped since the
raise aborts the method before `self.avg` is reassigned. -/
def process (s : State) (elem : ℚ) : Except PyError State :=
  let old_avg := s.avg
  let elems_cnt := s.elems_cnt + 1
  if "avgStateless" ∈ Average.attrs then
    let avg := Average.avg_stateless elem s.avg elems_cnt
    Except.ok
      { avg := avg, elems_cnt := elems_cnt,
        var_aux := s.var_aux + (elem - old_avg) * (elem - avg) }
  else
    Except.error PyError.attributeError

end Variance

namespace Entropy

/-- `Entropy.shannon` (statistics.py lines 126-152) over a list of sampled
source ports.  `np.unique(..., return_counts=True)` is modelled by mapping
each distinct element to its multiplicity; `np.log2` is the abstract
`L.log2`.  Rational addition is commutative, so the enumeration order of
the distinct elements does not affect the resulting value. -/
def shannon (L : NumLib) (elems : List ℕ) : ℚ :=
  let elems_len := elems.length
  if elems_len > 1 then
    let counts := elems.dedup.map (fun v => elems.count v)
    let probs := counts.map (fun c => (c : ℚ) / (elems_len : ℚ))
    let classes_num := (probs.filter (fun p => p ≠ 0)).length
    if classes_num > 1 then
      - (probs.map (fun p => p * L.log2 p)).sum
    else 0
  else 0

/-- `Entropy.shannon_norm` (statistics.py lines 155-170):
`shannon(elems) / np.log2(len(elems))` when the length is not 1, else 0. -/
def shannon_norm (L : NumLib) (elems : List ℕ) : ℚ :=
  if elems.length ≠ 1 then shannon L elems / L.log2 (elems.length : ℚ) else 0

end Entropy

namespace ReservoirSampler

/-- `ReservoirSampler.sample_stateless` (sampling.py lines 71-95).
`random.randint(0, elem_id)` is the abstract `L.randint elem_id`.
`List.set` leaves the list unchanged on an out-of-range index; in the
source the storage always has `samples_max` entries and in-bound indices
are used. -/
def sample_stateless (L : NumLib) (elem : ℕ) (samples_storage : List ℕ)
    (samples_max elem_id : ℕ) : List ℕ :=
  if samples_max > elem_id then
    samples_storage.set elem_id elem
  else
    let replace_idx := L.randint elem_id
    if samples_max > replace_idx then
      samples_storage.set replace_idx elem
    else
      samples_storage

end ReservoirSampler

/-- `PacketFeatures` (extractor.py lines 31-42): the input record the
engine consumes.  Protocol identifiers: TCP = 6, UDP = 17, ICMP = 1,
SCTP = 132 (extractor.py lines 25-28). -/
structure PacketFeatures where
  time : ℕ
  src_ip : String
  dst_ip : String
  proto_l4 : ℕ
  src_port : ℕ
  dst_port : ℕ
  len_headers : ℕ
  len_payload : ℕ
  fragmented : Bool
deriving DecidableEq, Repr

/-- `PROTO_L4_ICMP` (extractor.py line 25). -/
def PROTO_L4_ICMP : ℕ := 1

/-- `PROTO_L4_TCP` (extractor.py line 26). -/
def PROTO_L4_TCP : ℕ := 6

/-- `PROTO_L4_UDP` (extractor.py line 27). -/
def PROTO_L4_UDP : ℕ := 17

/-- One row of `NP_DTYPE_WINDOW_STATS` (logtypes.py lines 17-44).
Unsigned integer fields (`u4`/`u8`) are `Nat`, float fields (`f4`/`f8`)
are exact `Rat`. -/
structure WindowStats where
  window_id : ℕ
  pkts_total : ℕ
  bytes_total : ℕ
  tstamp_start : ℕ
  tstamp_end : ℕ
  pkt_arrivals_avg : ℚ
  pkt_arrivals_std : ℚ
  pkt_size_min : ℕ
  pkt_size_max : ℕ
  pkt_size_avg : ℚ
  pkt_size_std : ℚ
  tcp_pkt_count : ℕ
  udp_pkt_count : ℕ
  icmp_pkt_count : ℕ
  port_src_unique : ℕ
  port_src_entropy : ℚ
  conn_pkts_avg : ℚ
  pkts_frag_count : ℕ
  hdrs_payload_ratio_avg : ℚ
deriving DecidableEq, Repr

/-- `np.zeros(1, dtype=NP_DTYPE_WINDOW_STATS)` (logger.py line 122). -/
def WindowStats.zero : WindowStats :=
  { window_id := 0, pkts_total := 0, bytes_total := 0, tstamp_start := 0,
    tstamp_end := 0, pkt_arrivals_avg := 0, pkt_arrivals_std := 0,
    pkt_size_min := 0, pkt_size_max := 0, pkt_size_avg := 0,
    pkt_size_std := 0, tcp_pkt_count := 0, udp_pkt_count := 0,
    icmp_pkt_count := 0, port_src_unique := 0, port_src_entropy := 0,
    conn_pkts_avg := 0, pkts_frag_count := 0, hdrs_payload_ratio_avg := 0 }

/-- One row of `NP_DTYPE_WINDOW_AUXDATA` (logtypes.py lines 46-50). -/
structure AuxData where
  last_pkt_arrival : ℕ
  pkt_arrivals_std_aux : ℚ
  pkt_size_std_aux : ℚ
deriving DecidableEq, Repr

/-- `np.zeros(1, dtype=NP_DTYPE_WINDOW_AUXDATA)` (logger.py line 123). -/
def AuxData.zero : AuxData :=
  { last_pkt_arrival := 0, pkt_arrivals_std_aux := 0, pkt_size_std_aux := 0 }

/-- `IPWindow` (logger.py lines 54-61).  The two HyperLogLog sketches come
from the external `HLL` pip package (not part of this repository); each is
modelled by the list of strings added to it, see `hllCardinality`. -/
structure IPWindow where
  stats : WindowStats
  aux : AuxData
  sport_samples : List ℕ
  src_ports_hll : List String
  connections_hll : List String
deriving DecidableEq, Repr

/-- The fresh `IPWindow` built in `Logger.log` (logger.py lines 121-127):
zeroed stats and aux, `[0] * samples_size` samples, empty sketches. -/
def IPWindow.new (samples_size : ℕ) : IPWindow :=
  { stats := WindowStats.zero, aux := AuxData.zero,
    sport_samples := List.replicate samples_size 0,
    src_ports_hll := [], connections_hll := [] }

/-- Modelled from the spec: the external HyperLogLog sketch (`HLL` pip
package; spec section 4.2 requires only `add(string)` and
`cardinality()`).  The sketch is modelled by its list of added strings and
its cardinality as the exact number of distinct added strings — an
abstraction of the approximate sketch; no claim depends on the
approximation error. -/
def hllCardinality (added : List String) : ℕ :=
  added.dedup.length

/-- The `Logger` engine state (logger.py lines 64-97).  Configuration
fields hold the already-converted values of the constructor
(`_history_timeout` and `_window_length` in nanoseconds).  `window_current`
and `window_history` are insertion-ordered dicts, `ready_ips` the key set
of the LRU cache. -/
structure Logger where
  history_timeout : ℕ
  history_min : ℕ
  packets_min : ℕ
  samples_size : ℕ
  window_current : List (String × IPWindow)
  window_id : ℕ
  window_length : ℕ
  window_history : List (String × List WindowStats)
  ready_ips : List String
deriving DecidableEq, Repr

namespace Logger

/-- The per-window update performed by `Logger._log_new_ip` (logger.py
lines 425-452): initialise the freshly created window with this packet.
The `hdrs_payload_ratio_avg` division is exact rational division;
`pkt_size ≥ 1` per the input contract, so the Python `ZeroDivisionError`
for a 0-byte packet is not modelled. -/
def newIpUpdate (f : PacketFeatures) (w : IPWindow) : IPWindow :=
  let pkt_size := f.len_headers + f.len_payload
  let samples := w.sport_samples.set 0 f.src_port
  let stats :=
    { w.stats with
      pkts_total := 1
      bytes_total := pkt_size
      tstamp_start := f.time
      tstamp_end := f.time
      pkt_size_min := pkt_size
      pkt_size_max := pkt_size
      pkt_size_avg := (pkt_size : ℚ)
      hdrs_payload_ratio_avg := (f.len_headers : ℚ) / (pkt_size : ℚ) }
  { w with stats := stats, sport_samples := samples }

/-- `Logger._log_new_ip` (logger.py lines 425-452): apply `newIpUpdate` to
the window of `features.src_ip` (which `log` has just created). -/
def log_new_ip (s : Logger) (f : PacketFeatures) : Logger :=
  match assocGet s.window_current f.src_ip with
  | none => s
  | some w =>
    { s with
      window_current :=
        assocSet s.window_current f.src_ip (newIpUpdate f w) }

/-- `Logger._log_existing_ip` (logger.py lines 455-496).  The inter-arrival
delay `features.time - last_pkt_arrival` is a signed quantity (in the
source a Python int minus a numpy u8 value, promoted to float), modelled
as exact rational subtraction. -/
def existingIpUpdate (L : NumLib) (samples_size : ℕ) (f : PacketFeatures)
    (w : IPWindow) : IPWindow :=
  let pkt_size := f.len_headers + f.len_payload
  let pkt_hdr_share := (f.len_headers : ℚ) / (pkt_size : ℚ)
  let pkt_arrival_delay := (f.time : ℚ) - (w.aux.last_pkt_arrival : ℚ)
  let prev_pkt_arrivals_avg := w.stats.pkt_arrivals_avg
  let prev_pkt_size_avg := w.stats.pkt_size_avg
  let samples :=
    ReservoirSampler.sample_stateless L f.src_port w.sport_samples
      samples_size w.stats.pkts_total
  let pkts_total := w.stats.pkts_total + 1
  let arrivals_avg :=
    Average.avg_stateless pkt_arrival_delay prev_pkt_arrivals_avg pkts_total
  let size_avg :=
    Average.avg_stateless (pkt_size : ℚ) prev_pkt_size_avg pkts_total
  let stats :=
    { w.stats with
      pkts_total := pkts_total
      bytes_total := w.stats.bytes_total + pkt_size
      tstamp_end := f.time
      pkt_arrivals_avg := arrivals_avg
      pkt_size_min :=
        if pkt_size > w.stats.pkt_size_min then w.stats.pkt_size_min
        else pkt_size
      pkt_size_max :=
        if pkt_size < w.stats.pkt_size_max then w.stats.pkt_size_max
        else pkt_size
      pkt_size_avg := size_avg
      hdrs_payload_ratio_avg :=
        Average.avg_stateless pkt_hdr_share w.stats.hdrs_payload_ratio_avg
          pkts_total }
  let aux :=
    { w.aux with
      pkt_arrivals_std_aux :=
        Variance.var_aux_stateless pkt_arrival_delay
          w.aux.pkt_arrivals_std_aux prev_pkt_arrivals_avg arrivals_avg
      pkt_size_std_aux :=
        Variance.var_aux_stateless (pkt_size : ℚ) w.aux.pkt_size_std_aux
          prev_pkt_size_avg size_avg }
  { w with stats := stats, aux := aux, sport_samples := samples }

/-- `Logger._log_existing_ip` (logger.py lines 455-496): apply
`existingIpUpdate` to the window of `features.src_ip`. -/
def log_existing_ip (L : NumLib) (s : Logger) (f : PacketFeatures) : Logger :=
  match assocGet s.window_current f.src_ip with
  | none => s
  | some w =>
    { s with
      window_current :=
        assocSet s.window_current f.src_ip
          (existingIpUpdate L s.samples_size f w) }

/-- `Logger._log_common` (logger.py lines 499-527): last-arrival update, L4
counters, fragment counter, and the two HyperLogLog `add` calls. -/
def commonUpdate (f : PacketFeatures) (w : IPWindow) : IPWindow :=
  let aux := { w.aux with last_pkt_arrival := f.time }
  let stats := w.stats
  let stats :=
    if f.proto_l4 = PROTO_L4_TCP then
      { stats with tcp_pkt_count := stats.tcp_pkt_count + 1 }
    else if f.proto_l4 = PROTO_L4_UDP then
      { stats with udp_pkt_count := stats.udp_pkt_count + 1 }
    else if f.proto_l4 = PROTO_L4_ICMP then
      { stats with icmp_pkt_count := stats.icmp_pkt_count + 1 }
    else stats
  let stats :=
    if f.fragmented then
      { stats with pkts_frag_count := stats.pkts_frag_count + 1 }
    else stats
  { w with
    stats := stats, aux := aux
    src_ports_hll := w.src_ports_hll ++ [toString f.src_port]
    connections_hll :=
      w.connections_hll ++
        [toString f.src_port ++ f.dst_ip ++ toString f.dst_port] }

/-- `Logger._log_common` (logger.py lines 499-527): apply `commonUpdate`
to the window of `features.src_ip`. -/
def log_common (s : Logger) (f : PacketFeatures) : Logger :=
  match assocGet s.window_current f.src_ip with
  | none => s
  | some w =>
    { s with
      window_current :=
        assocSet s.window_current f.src_ip (commonUpdate f w) }

/-- `Logger.log` (logger.py lines 110-132): route to the existing-IP or
new-IP branch, then the common tail. -/
def log (L : NumLib) (s : Logger) (f : PacketFeatures) : Logger :=
  match assocGet s.window_current f.src_ip with
  | some _ => log_common (log_existing_ip L s f) f
  | none =>
    let s' :=
      { s with
        window_current :=
          assocSet s.window_current f.src_ip (IPWindow.new s.samples_size) }
    log_common (log_new_ip s' f) f

end Logger

namespace Logger

/-- The per-IP finalisation step of `Logger.end_window` (logger.py lines
146-162): stamp the (u4) window id, truncate the samples to the logged
packet count, compute the std-devs via `math.sqrt` (the abstract `L.sqrt`)
of `Variance.var_stateless`, the HyperLogLog cardinalities and the
normalised source-port entropy, and the packets-per-connection average. -/
def finalizeStats (L : NumLib) (cur_window_id : ℕ) (w : IPWindow) :
    WindowStats :=
  let samples := w.sport_samples.take w.stats.pkts_total
  { w.stats with
    window_id := cur_window_id % 2 ^ 32
    pkt_arrivals_std :=
      L.sqrt (Variance.var_stateless w.aux.pkt_arrivals_std_aux
        w.stats.pkts_total)
    pkt_size_std :=
      L.sqrt (Variance.var_stateless w.aux.pkt_size_std_aux
        w.stats.pkts_total)
    port_src_unique := hllCardinality w.src_ports_hll
    port_src_entropy := Entropy.shannon_norm L samples
    conn_pkts_avg :=
      (w.stats.pkts_total : ℚ) / (hllCardinality w.connections_hll : ℚ) }

/-- The history/ready bookkeeping threaded through `end_window`'s loop. -/
structure HistSt where
  hist : List (String × List WindowStats)
  ready : List String
deriving DecidableEq, Repr

/-- Processing of a single `(ip, window_data)` entry of the `end_window`
loop (logger.py lines 143-183).  When the boundary log has expired and the
list is longer than `history_min`, line 181 executes
`self._window_history[-self._history_min:]`, indexing the TTLCache itself
with a slice — which raises (`PyError.typeError`) instead of trimming the
list.  The boundary check subtracts two numpy u8 fields, hence
`wrapSub64`. -/
def processIp (L : NumLib) (history_timeout history_min packets_min
    cur_window_id : ℕ) (st : HistSt) (ip : String) (w : IPWindow) :
    Option PyError × HistSt :=
  if w.stats.pkts_total ≥ packets_min then
    let stats := finalizeStats L cur_window_id w
    match assocGet st.hist ip with
    | some h =>
      let h' := h ++ [stats]
      if h'.length ≥ history_min then
        let approx_cur_time := stats.tstamp_end
        let boundary_log_time :=
          ((h'.getD (h'.length - history_min) WindowStats.zero)).tstamp_start
        if history_timeout > wrapSub64 approx_cur_time boundary_log_time then
          (none,
            { hist := assocSet st.hist ip h'
              ready := readyInsert st.ready ip })
        else if h'.length = history_min then
          (none, { hist := assocSet st.hist ip (h'.drop 1),
                   ready := st.ready })
        else
          -- The in-place `append` of line 166 has already mutated the
          -- stored list when line 181 raises, so the appended history
          -- persists alongside the raised error.
          (some PyError.typeError,
            { hist := assocSet st.hist ip h', ready := st.ready })
      else
        (none, { hist := assocSet st.hist ip h', ready := st.ready })
    | none =>
      (none, { hist := assocSet st.hist ip [stats], ready := st.ready })
  else
    (none, st)

/-- The `for ip, window_data in self._window_current.items()` loop of
`end_window`.  A raise aborts the loop; the bookkeeping mutated so far
persists (first component `some e` reports the exception). -/
def foldIps (L : NumLib) (history_timeout history_min packets_min
    cur_window_id : ℕ) (st : HistSt) :
    List (String × IPWindow) → Option PyError × HistSt
  | [] => (none, st)
  | (ip, w) :: rest =>
    match processIp L history_timeout history_min packets_min cur_window_id
        st ip w with
    | (none, st') =>
        foldIps L history_timeout history_min packets_min cur_window_id
          st' rest
    | (some e, st') => (some e, st')

/-- `Logger.end_window` (logger.py lines 135-186).  The window id is
incremented up front; `window_current` is emptied only when the loop
completes without raising (line 186 is unreachable when line 181 raised). -/
def end_window (L : NumLib) (s : Logger) : Option PyError × Logger :=
  let cur_window_id := s.window_id
  let r :=
    foldIps L s.history_timeout s.history_min s.packets_min cur_window_id
      { hist := s.window_history, ready := s.ready_ips } s.window_current
  match r.1 with
  | none =>
    (none,
      { s with
        window_id := s.window_id + 1
        window_current := []
        window_history := r.2.hist
        ready_ips := r.2.ready })
  | some e =>
    (some e,
      { s with
        window_id := s.window_id + 1
        window_history := r.2.hist
        ready_ips := r.2.ready })

/-- `Logger.find_candidates` (logger.py lines 189-192). -/
def find_candidates (s : Logger) : List String :=
  s.ready_ips

/-- `Logger._compute_window_span` (logger.py lines 410-422), on the stored
(u4, hence `< 2^32`) window ids of the first and last row.  The empty-array
`IndexError` of `window_stats[0]` is handled by the caller
(`retrieve_statistics` raises before calling this on an empty suffix);
`getD` supplies the irrelevant default. -/
def compute_window_span (window_stats : List WindowStats) : ℕ :=
  let first_window_id := (window_stats.getD 0 WindowStats.zero).window_id
  let last_window_id :=
    (window_stats.getD (window_stats.length - 1) WindowStats.zero).window_id
  if last_window_id > first_window_id then
    last_window_id - first_window_id + 1
  else
    last_window_id + 2 ^ 32 - first_window_id + 1

end Logger

/-- `nsec2sec` (common/time.py lines 27-36): nanoseconds to seconds as an
exact rational in place of the Python float. -/
def nsec2sec (nanoseconds : ℕ) : ℚ :=
  (nanoseconds : ℚ) / 1000000000

/-- `np.average` over a list of rationals: sum divided by length. -/
def npAverage (l : List ℚ) : ℚ :=
  l.sum / (l.length : ℚ)

/-- Arithmetic mean of a list of rationals (0 for the empty list, by the
`Rat` zero-division convention). -/
def meanQ (l : List ℚ) : ℚ :=
  l.sum / (l.length : ℚ)

/-- Sum of squared deviations of a list from a given centre. -/
def sumSqDev (l : List ℚ) (m : ℚ) : ℚ :=
  (l.map (fun x => (x - m) ^ 2)).sum

/-- `np.std` (population standard deviation, divisor `n`): the square root
— the abstract `L.sqrt` — of the mean squared deviation from the mean. -/
def npStd (L : NumLib) (l : List ℚ) : ℚ :=
  L.sqrt (sumSqDev l (meanQ l) / (l.length : ℚ))

/-- `np.amin` of a nonempty list of naturals (0 for `[]`; callers guard). -/
def natMinList (l : List ℕ) : ℕ :=
  match l with
  | [] => 0
  | x :: xs => xs.foldl Nat.min x

/-- `np.amax` of a nonempty list of naturals (0 for `[]`; callers guard). -/
def natMaxList (l : List ℕ) : ℕ :=
  match l with
  | [] => 0
  | x :: xs => xs.foldl Nat.max x

/-- Storing a nonnegative float into a numpy unsigned integer field
truncates toward zero. -/
def ratFloorNat (q : ℚ) : ℕ :=
  (Int.floor q).toNat

/-- Python list slicing `l[-k:]`: for `k = 0` this is `l[0:]`, the whole
list; otherwise the last `k` elements (all of them when `k ≥ len(l)`). -/
def pyTakeLast {α : Type} (l : List α) (k : ℕ) : List α :=
  if k = 0 then l else l.drop (l.length - k)

/-- One row of `NP_DTYPE_WINDOW_SUMMARY_STATS` (logtypes.py lines 54-84).
`window_count`/`window_span`/`pkt_size_min`/`pkt_size_max` are u4 and
`pkts_total`/`bytes_total` u8 fields, so the float averages are truncated
on store; `pkt_rate`/`byte_rate` keep the `NpFloat` division result. -/
structure SummaryStats where
  src_ip : String
  window_count : ℕ
  window_span : ℕ
  pkts_total : ℕ
  bytes_total : ℕ
  pkt_rate : NpFloat
  byte_rate : NpFloat
  pkt_arrivals_avg : ℚ
  pkt_arrivals_std : ℚ
  pkt_size_min : ℕ
  pkt_size_max : ℕ
  pkt_size_avg : ℚ
  pkt_size_std : ℚ
  proto_tcp_share : ℚ
  proto_udp_share : ℚ
  proto_icmp_share : ℚ
  port_src_unique : ℚ
  port_src_entropy : ℚ
  conn_pkts_avg : ℚ
  pkts_frag_share : ℚ
  hdrs_payload_ratio_avg : ℚ
deriving DecidableEq, Repr

/-- One row of `NP_DTYPE_INTERWINDOW_STATS` (logtypes.py lines 87-101).
The two activity fields are named `intrawindow_activity_ratio` and
`interwindow_activity_ratio` in the source dtype. -/
structure InterwindowStats where
  pkts_total_std : ℚ
  bytes_total_std : ℚ
  pkt_size_avg_std : ℚ
  pkt_size_std_std : ℚ
  pkt_arrivals_avg_std : ℚ
  port_src_unique_std : ℚ
  port_src_entropy_std : ℚ
  conn_pkts_avg_std : ℚ
  pkts_frag_share_std : ℚ
  hdrs_payload_ratio_avg_std : ℚ
  dominant_proto_ratio_std : ℚ
  intrawindow_activity : ℚ
  interwindow_activity : ℚ
deriving DecidableEq, Repr

namespace Logger

/-- `Logger._summarize_windows` (logger.py lines 346-407) on a nonempty
suffix (the caller raises `IndexError` first on an empty one, see
`retrieve_statistics`).  Lines 366-373 recompute inside the function
exactly the value of `_compute_window_span` already stored at line 363;
the u4 store wraps the value modulo 2^32 (numpy 1.x wrapping conversion).
The per-window count ratios are uint-array divisions producing float64,
modelled as exact rational division (`pkts_total ≥ packets_min ≥ 1` for
every stored window).  The rates at lines 402-405 divide by the elapsed
seconds with no zero guard; `npDiv` keeps numpy's inf/nan semantics
there. -/
def summarize_windows (ip_addr : String)
    (window_stats : List WindowStats) : SummaryStats :=
  let proto_tcp_shares := window_stats.map
    (fun w => (w.tcp_pkt_count : ℚ) / (w.pkts_total : ℚ))
  let proto_udp_shares := window_stats.map
    (fun w => (w.udp_pkt_count : ℚ) / (w.pkts_total : ℚ))
  let proto_icmp_shares := window_stats.map
    (fun w => (w.icmp_pkt_count : ℚ) / (w.pkts_total : ℚ))
  let pkts_frag_shares := window_stats.map
    (fun w => (w.pkts_frag_count : ℚ) / (w.pkts_total : ℚ))
  let first := window_stats.getD 0 WindowStats.zero
  let last := window_stats.getD (window_stats.length - 1) WindowStats.zero
  let elapsed := nsec2sec (wrapSub64 last.tstamp_end first.tstamp_start)
  { src_ip := ip_addr
    window_count := window_stats.length
    window_span := compute_window_span window_stats % 2 ^ 32
    pkts_total :=
      ratFloorNat (npAverage (window_stats.map (fun w => (w.pkts_total : ℚ))))
    bytes_total :=
      ratFloorNat (npAverage (window_stats.map (fun w => (w.bytes_total : ℚ))))
    pkt_rate :=
      npDiv ((window_stats.map (fun w => (w.pkts_total : ℚ))).sum) elapsed
    byte_rate :=
      npDiv ((window_stats.map (fun w => (w.bytes_total : ℚ))).sum) elapsed
    pkt_arrivals_avg :=
      npAverage (window_stats.map (fun w => w.pkt_arrivals_avg))
    pkt_arrivals_std :=
      npAverage (window_stats.map (fun w => w.pkt_arrivals_std))
    pkt_size_min := natMinList (window_stats.map (fun w => w.pkt_size_min))
    pkt_size_max := natMaxList (window_stats.map (fun w => w.pkt_size_max))
    pkt_size_avg := npAverage (window_stats.map (fun w => w.pkt_size_avg))
    pkt_size_std := npAverage (window_stats.map (fun w => w.pkt_size_std))
    proto_tcp_share := npAverage proto_tcp_shares
    proto_udp_share := npAverage proto_udp_shares
    proto_icmp_share := npAverage proto_icmp_shares
    port_src_unique :=
      npAverage (window_stats.map (fun w => (w.port_src_unique : ℚ)))
    port_src_entropy :=
      npAverage (window_stats.map (fun w => w.port_src_entropy))
    conn_pkts_avg := npAverage (window_stats.map (fun w => w.conn_pkts_avg))
    pkts_frag_share := npAverage pkts_frag_shares
    hdrs_payload_ratio_avg :=
      npAverage (window_stats.map (fun w => w.hdrs_payload_ratio_avg)) }

/-- `Logger._compute_interwindows` (logger.py lines 295-343).  The dominant
L4 protocol is decided by comparing `max(tcp, udp, icmp)` against the TCP
then the UDP totals, so ties break TCP over UDP over ICMP.  The field
`interwindow_activity` divides the window count by the same
`_compute_window_span` value (line 341), and `intrawindow_activity` is the
summed per-window active time over `count * window_length` (line 335-338,
u8 subtractions wrap). -/
def compute_interwindows (L : NumLib) (window_length : ℕ)
    (window_stats : List WindowStats) : InterwindowStats :=
  let total_tcp_pkts := (window_stats.map (fun w => w.tcp_pkt_count)).sum
  let total_udp_pkts := (window_stats.map (fun w => w.udp_pkt_count)).sum
  let total_icmp_pkts := (window_stats.map (fun w => w.icmp_pkt_count)).sum
  let m := max (max total_tcp_pkts total_udp_pkts) total_icmp_pkts
  let dominant_proto_ratios :=
    if m = total_tcp_pkts then
      window_stats.map (fun w => (w.tcp_pkt_count : ℚ) / (w.pkts_total : ℚ))
    else if m = total_udp_pkts then
      window_stats.map (fun w => (w.udp_pkt_count : ℚ) / (w.pkts_total : ℚ))
    else
      window_stats.map (fun w => (w.icmp_pkt_count : ℚ) / (w.pkts_total : ℚ))
  let total_time := window_stats.length * window_length
  let total_activity :=
    (window_stats.map (fun w => (wrapSub64 w.tstamp_end w.tstamp_start : ℚ))).sum
  { pkts_total_std := npStd L (window_stats.map (fun w => (w.pkts_total : ℚ)))
    bytes_total_std :=
      npStd L (window_stats.map (fun w => (w.bytes_total : ℚ)))
    pkt_size_avg_std := npStd L (window_stats.map (fun w => w.pkt_size_avg))
    pkt_size_std_std := npStd L (window_stats.map (fun w => w.pkt_size_std))
    pkt_arrivals_avg_std :=
      npStd L (window_stats.map (fun w => w.pkt_arrivals_avg))
    port_src_unique_std :=
      npStd L (window_stats.map (fun w => (w.port_src_unique : ℚ)))
    port_src_entropy_std :=
      npStd L (window_stats.map (fun w => w.port_src_entropy))
    conn_pkts_avg_std := npStd L (window_stats.map (fun w => w.conn_pkts_avg))
    pkts_frag_share_std :=
      npStd L (window_stats.map
        (fun w => (w.pkts_frag_count : ℚ) / (w.pkts_total : ℚ)))
    hdrs_payload_ratio_avg_std :=
      npStd L (window_stats.map (fun w => w.hdrs_payload_ratio_avg))
    dominant_proto_ratio_std := npStd L dominant_proto_ratios
    intrawindow_activity := total_activity / (total_time : ℚ)
    interwindow_activity :=
      (window_stats.length : ℚ) / (compute_window_span window_stats : ℚ) }

end Logger

/-- The value `retrieve_statistics` hands back: either the raw dumped rows
(`dump_windows = True`) or the summary row optionally merged with the
inter-window row. -/
inductive RetrieveResult where
  | dump : List WindowStats → RetrieveResult
  | record : SummaryStats → Option InterwindowStats → RetrieveResult
deriving DecidableEq, Repr

namespace Logger

/-- The pure computation of `retrieve_statistics` after the history list
of `ip` has been fetched (logger.py lines 232-270): choose `logs_to_keep`
(the `current_time` walk counts, from the most recent backwards, entries
with `current_time - tstamp_start < history_timeout`; the subtraction is
signed, modelled in `ℤ`), clamp it to at least `history_min`, slice the
suffix, and either dump it or summarize it.  On an empty suffix the
summarizing path raises `IndexError` at `window_stats[0]` (line 366). -/
def retrieveCompute (L : NumLib) (history_timeout history_min
    window_length : ℕ) (ip : String) (current_time : Option ℕ)
    (compute_interwindow_stats : Bool) (window_cnt : Option ℕ)
    (dump_windows : Bool) (window_stats : List WindowStats) :
    Except PyError (Option RetrieveResult) :=
  let logs_to_keep :=
    match window_cnt with
    | none => window_stats.length
    | some c => c
  let logs_to_keep :=
    match current_time with
    | some t =>
      if history_timeout ≠ 0 then
        ((window_stats.reverse).takeWhile
          (fun st => (t : ℤ) - (st.tstamp_start : ℤ) < (history_timeout : ℤ))).length
      else logs_to_keep
    | none => logs_to_keep
  let logs_to_keep :=
    if logs_to_keep < history_min then history_min else logs_to_keep
  let window_stats := pyTakeLast window_stats logs_to_keep
  if dump_windows then
    Except.ok (some (RetrieveResult.dump window_stats))
  else if window_stats.isEmpty then
    Except.error PyError.indexError
  else
    let summary := summarize_windows ip window_stats
    if compute_interwindow_stats then
      Except.ok (some (RetrieveResult.record summary
        (some (compute_interwindows L window_length window_stats))))
    else
      Except.ok (some (RetrieveResult.record summary none))

/-- `Logger.retrieve_statistics` (logger.py lines 195-270).  The history
entry is deleted (when `delete_after`) and the IP removed from
`ready_ips` before any computation, so those mutations persist even when
the computation raises; the post-mutation state is always returned
alongside the result. -/
def retrieve_statistics (L : NumLib) (s : Logger) (ip : String)
    (current_time : Option ℕ) (compute_interwindow_stats : Bool)
    (window_cnt : Option ℕ) (dump_windows : Bool) (delete_after : Bool) :
    Except PyError (Option RetrieveResult) × Logger :=
  match assocGet s.window_history ip with
  | none => (Except.ok none, s)
  | some window_stats =>
    let s' :=
      { s with
        window_history :=
          if delete_after then assocErase s.window_history ip
          else s.window_history
        ready_ips := readyErase s.ready_ips ip }
    (retrieveCompute L s.history_timeout s.history_min s.window_length ip
      current_time compute_interwindow_stats window_cnt dump_windows
      window_stats, s')

end Logger

theorem assocGet_set_self {α : Type} (l : List (String × α)) (k : String)
    (v : α) : assocGet (assocSet l k v) k = some v := by
  induction l with
  | nil => simp [assocGet, assocSet]
  | cons p rest ih =>
    by_cases h : p.1 = k
    · simp [assocSet, h, assocGet]
    · simp [assocSet, h, assocGet, ih]

theorem assocGet_set_ne {α : Type} (l : List (String × α)) (k k' : String)
    (v : α) (h : k' ≠ k) :
    assocGet (assocSet l k v) k' = assocGet l k' := by
  induction l with
  | nil => simp [assocGet, assocSet, Ne.symm h]
  | cons p rest ih =>
    by_cases hp : p.1 = k
    · simp [assocSet, hp, assocGet, Ne.symm h]
    · simp [assocSet, hp, assocGet, ih]

theorem assocGet_erase_self {α : Type} (l : List (String × α)) (k : String) :
    assocGet (assocErase l k) k = none := by
  induction l with
  | nil => simp [assocErase, assocGet]
  | cons p rest ih =>
    by_cases hp : p.1 = k
    · simpa [assocErase, hp] using ih
    · simpa [assocErase, hp, assocGet] using ih

theorem readyInsert_mem (l : List String) (ip : String) :
    ip ∈ readyInsert l ip := by
  by_cases h : ip ∈ l <;> simp [readyInsert, h]

theorem readyInsert_mem_mono (l : List String) (ip ip' : String)
    (h : ip ∈ l) : ip ∈ readyInsert l ip' := by
  by_cases h' : ip' ∈ l
  · simpa [readyInsert, h'] using h
  · simp [readyInsert, h']
    exact Or.inl h

namespace Logger

/-- The components of a `Logger` other than `window_current`, bundled for
the frame lemmas about `log`. -/
def sansCurrent (s : Logger) :
    ℕ × ℕ × ℕ × ℕ × ℕ × ℕ × List (String × List WindowStats) ×
      List String :=
  (s.history_timeout, s.history_min, s.packets_min, s.samples_size,
    s.window_id, s.window_length, s.window_history, s.ready_ips)

theorem log_new_ip_sansCurrent (s : Logger) (f : PacketFeatures) :
    (log_new_ip s f).sansCurrent = s.sansCurrent := by
  unfold log_new_ip
  cases hx : assocGet s.window_current f.src_ip <;> rfl

theorem log_existing_ip_sansCurrent (L : NumLib) (s : Logger)
    (f : PacketFeatures) :
    (log_existing_ip L s f).sansCurrent = s.sansCurrent := by
  unfold log_existing_ip
  cases hx : assocGet s.window_current f.src_ip <;> rfl

theorem log_common_sansCurrent (s : Logger) (f : PacketFeatures) :
    (log_common s f).sansCurrent = s.sansCurrent := by
  unfold log_common
  cases hx : assocGet s.window_current f.src_ip <;> rfl

theorem log_sansCurrent (L : NumLib) (s : Logger) (f : PacketFeatures) :
    (log L s f).sansCurrent = s.sansCurrent := by
  unfold log
  cases hx : assocGet s.window_current f.src_ip with
  | none =>
    exact (log_common_sansCurrent _ _).trans (log_new_ip_sansCurrent _ _)
  | some w =>
    exact (log_common_sansCurrent _ _).trans
      (log_existing_ip_sansCurrent _ _ _)

theorem log_new_ip_lookup_ne (s : Logger) (f : PacketFeatures) (ip : String)
    (h : ip ≠ f.src_ip) :
    assocGet (log_new_ip s f).window_current ip =
      assocGet s.window_current ip := by
  unfold log_new_ip
  cases hx : assocGet s.window_current f.src_ip with
  | none => rfl
  | some w => exact assocGet_set_ne _ _ _ _ h

theorem log_existing_ip_lookup_ne (L : NumLib) (s : Logger)
    (f : PacketFeatures) (ip : String) (h : ip ≠ f.src_ip) :
    assocGet (log_existing_ip L s f).window_current ip =
      assocGet s.window_current ip := by
  unfold log_existing_ip
  cases hx : assocGet s.window_current f.src_ip with
  | none => rfl
  | some w => exact assocGet_set_ne _ _ _ _ h

theorem log_common_lookup_ne (s : Logger) (f : PacketFeatures) (ip : String)
    (h : ip ≠ f.src_ip) :
    assocGet (log_common s f).window_current ip =
      assocGet s.window_current ip := by
  unfold log_common
  cases hx : assocGet s.window_current f.src_ip with
  | none => rfl
  | some w => exact assocGet_set_ne _ _ _ _ h

theorem log_lookup_ne (L : NumLib) (s : Logger) (f : PacketFeatures)
    (ip : String) (h : ip ≠ f.src_ip) :
    assocGet (log L s f).window_current ip =
      assocGet s.window_current ip := by
  unfold log
  cases hx : assocGet s.window_current f.src_ip with
  | none =>
    rw [log_common_lookup_ne _ _ _ h, log_new_ip_lookup_ne _ _ _ h]
    exact assocGet_set_ne _ _ _ _ h
  | some w =>
    rw [log_common_lookup_ne _ _ _ h, log_existing_ip_lookup_ne _ _ _ _ h]

end Logger

/-- C10: for every `Logger` state and every `log(features)` call, the
fields `window_history`, `ready_ips`, `window_id` and the configuration
fields (`window_length`, `history_min`, `history_timeout`, `packets_min`,
`samples_size`) are unchanged, and every key of `window_current` other
than `features.src_ip` keeps its binding (so the only key created or
modified is `features.src_ip`). -/
theorem log_frame_effect (L : NumLib) (s : Logger) (f : PacketFeatures) :
    (Logger.log L s f).window_history = s.window_history ∧
    (Logger.log L s f).ready_ips = s.ready_ips ∧
    (Logger.log L s f).window_id = s.window_id ∧
    (Logger.log L s f).window_length = s.window_length ∧
    (Logger.log L s f).history_min = s.history_min ∧
    (Logger.log L s f).history_timeout = s.history_timeout ∧
    (Logger.log L s f).packets_min = s.packets_min ∧
    (Logger.log L s f).samples_size = s.samples_size ∧
    ∀ ip : String, ip ≠ f.src_ip →
      assocGet (Logger.log L s f).window_current ip =
        assocGet s.window_current ip := by
  have h := Logger.log_sansCurrent L s f
  exact ⟨congrArg (fun t => t.2.2.2.2.2.2.1) h,
    congrArg (fun t => t.2.2.2.2.2.2.2) h,
    congrArg (fun t => t.2.2.2.2.1) h,
    congrArg (fun t => t.2.2.2.2.2.1) h,
    congrArg (fun t => t.2.1) h,
    congrArg (fun t => t.1) h,
    congrArg (fun t => t.2.2.1) h,
    congrArg (fun t => t.2.2.2.1) h,
    fun ip hip => Logger.log_lookup_ne L s f ip hip⟩

/-- A two-IP demonstration state used by the `log` frame witness. -/
def demoState : Logger :=
  { history_timeout := 120000000000, history_min := 6, packets_min := 15,
    samples_size := 2, window_current := [("10.0.0.9", IPWindow.new 2)],
    window_id := 3, window_length := 1000000000,
    window_history := [("10.0.0.9", [WindowStats.zero])],
    ready_ips := ["10.0.0.9"] }

/-- A demonstration packet used by the `log` frame witness. -/
def demoPkt : PacketFeatures :=
  { time := 1000, src_ip := "10.0.0.1", dst_ip := "10.0.0.2", proto_l4 := 6,
    src_port := 1234, dst_port := 80, len_headers := 60, len_payload := 40,
    fragmented := false }

/-- Witness for C10: the frame condition evaluated at a concrete state,
packet and unrelated key `"10.0.0.9"`. -/
theorem log_frame_effect_witness :
    (Logger.log testLib demoState demoPkt).window_history =
        demoState.window_history ∧
    (Logger.log testLib demoState demoPkt).ready_ips = demoState.ready_ips ∧
    (Logger.log testLib demoState demoPkt).window_id = demoState.window_id ∧
    assocGet (Logger.log testLib demoState demoPkt).window_current
        "10.0.0.9" = assocGet demoState.window_current "10.0.0.9" := by
  have h := log_frame_effect testLib demoState demoPkt
  exact ⟨h.1, h.2.1, h.2.2.1, h.2.2.2.2.2.2.2.2 "10.0.0.9" (by decide)⟩

/-- C9: every call of the stateful `Variance.process` resolves the
attribute `avgStateless` on class `Average`, whose defined attributes do
not include it (the method is spelled `avg_stateless`), so every call
raises `AttributeError` regardless of the object state and the element. -/
theorem variance_process_raises (s : Variance.State) (elem : ℚ) :
    Variance.process s elem = Except.error PyError.attributeError := by
  simp [Variance.process, Average.attrs]

namespace Logger

theorem log_new_ip_lookup_self (s : Logger) (f : PacketFeatures)
    (w : IPWindow) (h : assocGet s.window_current f.src_ip = some w) :
    assocGet (log_new_ip s f).window_current f.src_ip =
      some (newIpUpdate f w) := by
  unfold log_new_ip
  rw [h]
  exact assocGet_set_self _ _ _

theorem log_existing_ip_lookup_self (L : NumLib) (s : Logger)
    (f : PacketFeatures) (w : IPWindow)
    (h : assocGet s.window_current f.src_ip = some w) :
    assocGet (log_existing_ip L s f).window_current f.src_ip =
      some (existingIpUpdate L s.samples_size f w) := by
  unfold log_existing_ip
  rw [h]
  exact assocGet_set_self _ _ _

theorem log_common_lookup_self (s : Logger) (f : PacketFeatures)
    (w : IPWindow) (h : assocGet s.window_current f.src_ip = some w) :
    assocGet (log_common s f).window_current f.src_ip =
      some (commonUpdate f w) := by
  unfold log_common
  rw [h]
  exact assocGet_set_self _ _ _

theorem log_common_samples_size (s : Logger) (f : PacketFeatures) :
    (log_common s f).samples_size = s.samples_size := by
  unfold log_common
  cases hx : assocGet s.window_current f.src_ip <;> rfl

/-- The window of `features.src_ip` after `log`, when the IP was absent
from the current window: the new-IP then the common update applied to a
fresh `IPWindow`. -/
theorem log_lookup_self_none (L : NumLib) (s : Logger) (f : PacketFeatures)
    (h : assocGet s.window_current f.src_ip = none) :
    assocGet (log L s f).window_current f.src_ip =
      some (commonUpdate f (newIpUpdate f (IPWindow.new s.samples_size))) := by
  unfold log
  rw [h]
  have h1 : assocGet (assocSet s.window_current f.src_ip
      (IPWindow.new s.samples_size)) f.src_ip =
      some (IPWindow.new s.samples_size) := assocGet_set_self _ _ _
  exact log_common_lookup_self _ _ _ (log_new_ip_lookup_self _ _ _ h1)

/-- The window of `features.src_ip` after `log`, when the IP already had a
window `w`: the existing-IP then the common update applied to `w`. -/
theorem log_lookup_self_some (L : NumLib) (s : Logger) (f : PacketFeatures)
    (w : IPWindow) (h : assocGet s.window_current f.src_ip = some w) :
    assocGet (log L s f).window_current f.src_ip =
      some (commonUpdate f (existingIpUpdate L s.samples_size f w)) := by
  unfold log
  rw [h]
  exact log_common_lookup_self (log_existing_ip L s f) f _
    (log_existing_ip_lookup_self L s f w h)

end Logger

/-- The incremental mean stays between the previous mean and the new
element (hence inside any interval containing both). -/
theorem avg_stateless_between (x a : ℚ) (k : ℕ) (hk : 1 ≤ k) :
    min a x ≤ Average.avg_stateless x a k ∧
      Average.avg_stateless x a k ≤ max a x := by
  unfold Average.avg_stateless
  have hk1 : (1 : ℚ) ≤ (k : ℚ) := by exact_mod_cast hk
  have hk0 : ((k : ℚ)) ≠ 0 := by linarith
  have hmul : ((x - a) / (k : ℚ)) * (k : ℚ) = x - a := div_mul_cancel₀ _ hk0
  set d := (x - a) / (k : ℚ) with hd
  rcases le_or_lt 0 d with hdp | hdn
  · constructor
    · calc min a x ≤ a := min_le_left _ _
        _ ≤ a + d := by linarith
    · have hx : a + d ≤ x := by nlinarith [mul_nonneg hdp (by linarith : (0 : ℚ) ≤ (k : ℚ) - 1)]
      calc a + d ≤ x := hx
        _ ≤ max a x := le_max_right _ _
  · constructor
    · have hx : x ≤ a + d := by nlinarith [mul_nonpos_of_nonpos_of_nonneg (le_of_lt hdn) (by linarith : (0 : ℚ) ≤ (k : ℚ) - 1)]
      calc min a x ≤ x := min_le_right _ _
        _ ≤ a + d := hx
    · calc a + d ≤ a := by linarith
        _ ≤ max a x := le_max_left _ _

namespace Logger

/-- `commonUpdate` leaves the packet count, the timestamps and the size
min/avg/max untouched (it only bumps protocol and fragment counters and
feeds the sketches). -/
theorem commonUpdate_core (f : PacketFeatures) (w : IPWindow) :
    (commonUpdate f w).stats.pkts_total = w.stats.pkts_total ∧
    (commonUpdate f w).stats.tstamp_start = w.stats.tstamp_start ∧
    (commonUpdate f w).stats.tstamp_end = w.stats.tstamp_end ∧
    (commonUpdate f w).stats.pkt_size_min = w.stats.pkt_size_min ∧
    (commonUpdate f w).stats.pkt_size_max = w.stats.pkt_size_max ∧
    (commonUpdate f w).stats.pkt_size_avg = w.stats.pkt_size_avg := by
  unfold commonUpdate
  split_ifs <;> exact ⟨rfl, rfl, rfl, rfl, rfl, rfl⟩

/-- The per-window size/count invariant of claim C5: at least one packet
and the running size average between the tracked min and max. -/
def sizeInv (w : IPWindow) : Prop :=
  1 ≤ w.stats.pkts_total ∧
    (w.stats.pkt_size_min : ℚ) ≤ w.stats.pkt_size_avg ∧
    w.stats.pkt_size_avg ≤ (w.stats.pkt_size_max : ℚ)

/-- The per-window time invariant of claim C5. -/
def timeInv (w : IPWindow) : Prop :=
  w.stats.tstamp_start ≤ w.stats.tstamp_end

theorem sizeInv_newIpUpdate (f : PacketFeatures) (w : IPWindow) :
    sizeInv (newIpUpdate f w) := by
  refine ⟨le_refl _, le_refl _, le_refl _⟩

theorem timeInv_newIpUpdate (f : PacketFeatures) (w : IPWindow) :
    timeInv (newIpUpdate f w) := le_refl _

theorem sizeInv_existingIpUpdate (L : NumLib) (ss : ℕ) (f : PacketFeatures)
    (w : IPWindow) (hw : sizeInv w) :
    sizeInv (existingIpUpdate L ss f w) := by
  obtain ⟨hpk, hmin, hmax⟩ := hw
  have hk : 1 ≤ w.stats.pkts_total + 1 := Nat.le_add_left _ _
  have hb := avg_stateless_between ((f.len_headers + f.len_payload : ℕ) : ℚ)
    w.stats.pkt_size_avg (w.stats.pkts_total + 1) hk
  unfold sizeInv
  simp only [existingIpUpdate]
  refine ⟨Nat.le_add_left _ _, ?_, ?_⟩
  · refine le_trans ?_ hb.1
    split_ifs with hc
    · refine le_min hmin ?_
      exact_mod_cast le_of_lt hc
    · push_neg at hc
      refine le_min (le_trans ?_ hmin) (le_refl _)
      exact_mod_cast hc
  · refine le_trans hb.2 ?_
    split_ifs with hc
    · refine max_le hmax ?_
      exact_mod_cast le_of_lt hc
    · push_neg at hc
      refine max_le (le_trans hmax ?_) (le_refl _)
      exact_mod_cast hc

theorem timeInv_existingIpUpdate (L : NumLib) (ss : ℕ) (f : PacketFeatures)
    (w : IPWindow) (hw : timeInv w) (hf : w.stats.tstamp_end ≤ f.time) :
    timeInv (existingIpUpdate L ss f w) := by
  exact le_trans hw hf

theorem sizeInv_commonUpdate (f : PacketFeatures) (w : IPWindow)
    (hw : sizeInv w) : sizeInv (commonUpdate f w) := by
  obtain ⟨h1, h2, h3, h4, h5, h6⟩ := commonUpdate_core f w
  exact ⟨h1 ▸ hw.1, by rw [h4, h6]; exact hw.2.1, by rw [h5, h6]; exact hw.2.2⟩

theorem timeInv_commonUpdate (f : PacketFeatures) (w : IPWindow)
    (hw : timeInv w) : timeInv (commonUpdate f w) := by
  obtain ⟨h1, h2, h3, h4, h5, h6⟩ := commonUpdate_core f w
  unfold timeInv
  rw [h2, h3]
  exact hw

end Logger

/-- An initial logger state with an empty current window, used by several
concrete evaluations. -/
def c5Init : Logger :=
  { history_timeout := 120000000000, history_min := 6, packets_min := 15,
    samples_size := 2, window_current := [], window_id := 0,
    window_length := 1000000000, window_history := [], ready_ips := [] }

/-- First out-of-order packet (timestamp 10). -/
def oooPkt1 : PacketFeatures :=
  { time := 10, src_ip := "10.0.0.1", dst_ip := "10.0.0.2", proto_l4 := 6,
    src_port := 1, dst_port := 80, len_headers := 60, len_payload := 40,
    fragmented := false }

/-- Second out-of-order packet (timestamp 5, earlier than the first). -/
def oooPkt2 : PacketFeatures :=
  { time := 5, src_ip := "10.0.0.1", dst_ip := "10.0.0.2", proto_l4 := 6,
    src_port := 2, dst_port := 80, len_headers := 60, len_payload := 40,
    fragmented := false }

/-- The logger state after logging the two out-of-order packets. -/
def oooState : Logger :=
  Logger.log testLib (Logger.log testLib c5Init oooPkt1) oooPkt2

/-- Counterexample for C5: after logging a packet at time 10 and then a
packet of the same IP at time 5 within the same window, the window of
`"10.0.0.1"` has `tstamp_start = 10 > 5 = tstamp_end` — `log` writes
`tstamp_end := features.time` unconditionally (logger.py line 479), so
the invariant `tstamp_start ≤ tstamp_end` fails on out-of-order input. -/
theorem log_invariants_counterexample :
    ((assocGet oooState.window_current "10.0.0.1").map
      (fun w => w.stats.tstamp_start)) = some 10 ∧
    ((assocGet oooState.window_current "10.0.0.1").map
      (fun w => w.stats.tstamp_end)) = some 5 ∧
    ¬ (∀ w : IPWindow, assocGet oooState.window_current "10.0.0.1" = some w →
        w.stats.tstamp_start ≤ w.stats.tstamp_end) := by
  have h1 : ((assocGet oooState.window_current "10.0.0.1").map
      (fun w => w.stats.tstamp_start)) = some 10 := by decide
  have h2 : ((assocGet oooState.window_current "10.0.0.1").map
      (fun w => w.stats.tstamp_end)) = some 5 := by decide
  refine ⟨h1, h2, ?_⟩
  intro hall
  cases hx : assocGet oooState.window_current "10.0.0.1" with
  | none => rw [hx] at h1; exact Option.noConfusion h1
  | some w =>
    have hle := hall w hx
    rw [hx] at h1 h2
    simp only [Option.map_some', Option.some.injEq] at h1 h2
    rw [h1, h2] at hle
    exact absurd hle (by decide)

/-- C5 (amended): after any `log` call, every window of `window_current`
satisfies `pkts_total ≥ 1` and `pkt_size_min ≤ pkt_size_avg ≤
pkt_size_max` whenever every window did before; the invariant
`tstamp_start ≤ tstamp_end` is additionally preserved provided the logged
packet's timestamp is not older than the current `tstamp_end` of its IP's
window (the source sets `tstamp_end` unconditionally, so the claim's
out-of-order case is excluded — see the counterexample). -/
theorem log_invariants_preserved (L : NumLib) (s : Logger)
    (f : PacketFeatures)
    (hsize : ∀ ip w, assocGet s.window_current ip = some w →
      Logger.sizeInv w) :
    (∀ ip w', assocGet (Logger.log L s f).window_current ip = some w' →
      Logger.sizeInv w') ∧
    ((∀ ip w, assocGet s.window_current ip = some w → Logger.timeInv w) →
      (∀ w, assocGet s.window_current f.src_ip = some w →
        w.stats.tstamp_end ≤ f.time) →
      ∀ ip w', assocGet (Logger.log L s f).window_current ip = some w' →
        Logger.timeInv w') := by
  constructor
  · intro ip w' h'
    by_cases hip : ip = f.src_ip
    · subst hip
      cases hx : assocGet s.window_current f.src_ip with
      | none =>
        rw [Logger.log_lookup_self_none L s f hx] at h'
        cases h'
        exact Logger.sizeInv_commonUpdate _ _ (Logger.sizeInv_newIpUpdate _ _)
      | some w =>
        rw [Logger.log_lookup_self_some L s f w hx] at h'
        cases h'
        exact Logger.sizeInv_commonUpdate _ _
          (Logger.sizeInv_existingIpUpdate _ _ _ _ (hsize _ _ hx))
    · rw [Logger.log_lookup_ne L s f ip hip] at h'
      exact hsize _ _ h'
  · intro htime hend ip w' h'
    by_cases hip : ip = f.src_ip
    · subst hip
      cases hx : assocGet s.window_current f.src_ip with
      | none =>
        rw [Logger.log_lookup_self_none L s f hx] at h'
        cases h'
        exact Logger.timeInv_commonUpdate _ _ (Logger.timeInv_newIpUpdate _ _)
      | some w =>
        rw [Logger.log_lookup_self_some L s f w hx] at h'
        cases h'
        exact Logger.timeInv_commonUpdate _ _
          (Logger.timeInv_existingIpUpdate _ _ _ _ (htime _ _ hx)
            (hend _ hx))
    · rw [Logger.log_lookup_ne L s f ip hip] at h'
      exact htime _ _ h'

/-- Witness for the amended C5 at a concrete state and packet: the
hypotheses hold for the empty initial window map, and the conclusion
follows from the theorem. -/
theorem log_invariants_preserved_witness :
    (∀ ip w, assocGet c5Init.window_current ip = some w →
      Logger.sizeInv w) ∧
    (∀ ip w', assocGet (Logger.log testLib c5Init oooPkt1).window_current
        ip = some w' → Logger.sizeInv w') :=
  ⟨by intro ip w h; simp [c5Init, assocGet] at h,
    (log_invariants_preserved testLib c5Init oooPkt1
      (by intro ip w h; simp [c5Init, assocGet] at h)).1⟩

/-- The total size of a packet, `len_headers + len_payload`. -/
def pktSize (f : PacketFeatures) : ℕ :=
  f.len_headers + f.len_payload

theorem ite_is_min (a b : ℕ) : (if b > a then a else b) = Nat.min a b := by
  simp only [Nat.min_def]
  split_ifs with h h2 <;> omega

theorem ite_is_max (a b : ℕ) : (if b < a then a else b) = Nat.max a b := by
  simp only [Nat.max_def]
  split_ifs with h h2 <;> omega

theorem meanQ_singleton (x : ℚ) : meanQ [x] = x := by
  simp [meanQ]

theorem sumSqDev_singleton (x m : ℚ) : sumSqDev [x] m = (x - m) ^ 2 := by
  simp [sumSqDev]

theorem meanQ_append (l : List ℚ) (x : ℚ) :
    meanQ (l ++ [x]) = Average.avg_stateless x (meanQ l) (l.length + 1) := by
  rcases eq_or_ne l.length 0 with h0 | hn
  · have hl : l = [] := List.length_eq_zero.mp h0
    subst hl
    simp [meanQ, Average.avg_stateless]
  · have hq : ((l.length : ℚ)) ≠ 0 := Nat.cast_ne_zero.mpr hn
    have hq1 : ((l.length : ℚ)) + 1 ≠ 0 := by positivity
    unfold meanQ Average.avg_stateless
    rw [List.sum_append, List.length_append]
    push_cast
    field_simp
    ring

theorem sumSqDev_shift (l : List ℚ) (a b : ℚ) :
    sumSqDev l b =
      sumSqDev l a + 2 * (a - b) * (l.sum - l.length * a) +
        l.length * (b - a) ^ 2 := by
  induction l with
  | nil => simp [sumSqDev]
  | cons x xs ih =>
    simp only [sumSqDev, List.map_cons, List.sum_cons, List.length_cons]
      at ih ⊢
    rw [ih]
    push_cast
    ring

/-- Welford's identity over exact rationals: appending `x` adds
`(x - old mean) * (x - new mean)` to the sum of squared deviations from
the running mean. -/
theorem welford_identity (l : List ℚ) (x : ℚ) :
    sumSqDev (l ++ [x]) (meanQ (l ++ [x])) =
      sumSqDev l (meanQ l) + (x - meanQ l) * (x - meanQ (l ++ [x])) := by
  rcases eq_or_ne l.length 0 with h0 | hn
  · have hl : l = [] := List.length_eq_zero.mp h0
    subst hl
    simp [sumSqDev, meanQ]
  · have hq : ((l.length : ℚ)) ≠ 0 := Nat.cast_ne_zero.mpr hn
    have hq1 : ((l.length : ℚ)) + 1 ≠ 0 := by positivity
    have hsplit : sumSqDev (l ++ [x]) (meanQ (l ++ [x])) =
        sumSqDev l (meanQ (l ++ [x])) + (x - meanQ (l ++ [x])) ^ 2 := by
      simp [sumSqDev]
    rw [hsplit, sumSqDev_shift l (meanQ l) (meanQ (l ++ [x]))]
    have hsum : l.sum = l.length * meanQ l := by
      unfold meanQ
      field_simp
    rw [hsum]
    have hmean : meanQ (l ++ [x]) =
        ((l.length : ℚ) * meanQ l + x) / ((l.length : ℚ) + 1) := by
      unfold meanQ
      rw [List.sum_append, List.length_append, hsum]
      simp only [List.sum_cons, List.sum_nil, add_zero, List.length_cons,
        List.length_nil]
      push_cast
      field_simp
    rw [hmean]
    field_simp
    ring

namespace Logger

theorem commonUpdate_aux_size (f : PacketFeatures) (w : IPWindow) :
    (commonUpdate f w).aux.pkt_size_std_aux = w.aux.pkt_size_std_aux := rfl

theorem existingIpUpdate_fields (L : NumLib) (ss : ℕ) (f : PacketFeatures)
    (w : IPWindow) :
    (existingIpUpdate L ss f w).stats.pkts_total =
        w.stats.pkts_total + 1 ∧
    (existingIpUpdate L ss f w).stats.pkt_size_min =
        Nat.min w.stats.pkt_size_min (pktSize f) ∧
    (existingIpUpdate L ss f w).stats.pkt_size_max =
        Nat.max w.stats.pkt_size_max (pktSize f) ∧
    (existingIpUpdate L ss f w).stats.pkt_size_avg =
        Average.avg_stateless ((pktSize f : ℕ) : ℚ) w.stats.pkt_size_avg
          (w.stats.pkts_total + 1) ∧
    (existingIpUpdate L ss f w).aux.pkt_size_std_aux =
        Variance.var_aux_stateless ((pktSize f : ℕ) : ℚ)
          w.aux.pkt_size_std_aux w.stats.pkt_size_avg
          (Average.avg_stateless ((pktSize f : ℕ) : ℚ) w.stats.pkt_size_avg
            (w.stats.pkts_total + 1)) := by
  refine ⟨rfl, ?_, ?_, rfl, rfl⟩
  · exact ite_is_min _ _
  · exact ite_is_max _ _

/-- Running the packet stream through `log` left to right. -/
def logRun (L : NumLib) (s : Logger) (fs : List PacketFeatures) : Logger :=
  fs.foldl (log L) s

theorem logRun_append_single (L : NumLib) (s : Logger)
    (fs : List PacketFeatures) (g : PacketFeatures) :
    logRun L s (fs ++ [g]) = log L (logRun L s fs) g := by
  simp [logRun, List.foldl_append]

/-- The per-IP window aggregates after logging a packet sequence of a
single source IP starting from a state where that IP has no current
window: the packet count, the size min/max, the running size mean and the
Welford auxiliary sum are exactly the count, min, max, arithmetic mean
and sum of squared deviations of the packet sizes. -/
theorem logRun_single_ip (L : NumLib) (s : Logger) (f : PacketFeatures)
    (fs : List PacketFeatures)
    (hfresh : assocGet s.window_current f.src_ip = none)
    (hips : ∀ g ∈ fs, g.src_ip = f.src_ip) :
    ∃ w : IPWindow,
      assocGet (logRun L s (f :: fs)).window_current f.src_ip = some w ∧
      w.stats.pkts_total = fs.length + 1 ∧
      w.stats.pkt_size_min = natMinList ((f :: fs).map pktSize) ∧
      w.stats.pkt_size_max = natMaxList ((f :: fs).map pktSize) ∧
      w.stats.pkt_size_avg =
        meanQ ((f :: fs).map (fun g => ((pktSize g : ℕ) : ℚ))) ∧
      w.aux.pkt_size_std_aux =
        sumSqDev ((f :: fs).map (fun g => ((pktSize g : ℕ) : ℚ)))
          (meanQ ((f :: fs).map (fun g => ((pktSize g : ℕ) : ℚ)))) := by
  induction fs using List.reverseRecOn with
  | nil =>
    refine ⟨commonUpdate f (newIpUpdate f (IPWindow.new s.samples_size)),
      ?_, ?_, ?_, ?_, ?_, ?_⟩
    · have : logRun L s [f] = log L s f := rfl
      rw [this]
      exact log_lookup_self_none L s f hfresh
    · obtain ⟨h1, _, _, _, _, _⟩ := commonUpdate_core f _
      rw [h1]; rfl
    · obtain ⟨_, _, _, h4, _, _⟩ := commonUpdate_core f _
      rw [h4]; rfl
    · obtain ⟨_, _, _, _, h5, _⟩ := commonUpdate_core f _
      rw [h5]; rfl
    · obtain ⟨_, _, _, _, _, h6⟩ := commonUpdate_core f _
      rw [h6]
      show ((pktSize f : ℕ) : ℚ) = meanQ [((pktSize f : ℕ) : ℚ)]
      rw [meanQ_singleton]
    · rw [commonUpdate_aux_size]
      show (0 : ℚ) =
        sumSqDev [((pktSize f : ℕ) : ℚ)] (meanQ [((pktSize f : ℕ) : ℚ)])
      rw [sumSqDev_singleton, meanQ_singleton]
      ring
  | append_singleton gs g ih =>
    have hips' : ∀ p ∈ gs, p.src_ip = f.src_ip := by
      intro p hp
      exact hips p (List.mem_append_left _ hp)
    have hg : g.src_ip = f.src_ip :=
      hips g (List.mem_append_right _ (List.mem_singleton_self g))
    obtain ⟨w, hw, hcnt, hmin, hmax, havg, haux⟩ := ih hips'
    have hlook : assocGet (logRun L s (f :: gs)).window_current g.src_ip =
        some w := by
      rw [hg]; exact hw
    have hstep : logRun L s (f :: (gs ++ [g])) =
        log L (logRun L s (f :: gs)) g := by
      have hc : f :: (gs ++ [g]) = (f :: gs) ++ [g] := by simp
      rw [hc, logRun_append_single]
    have hmapN : List.map pktSize (f :: (gs ++ [g])) =
        List.map pktSize (f :: gs) ++ [pktSize g] := by simp
    have hmapQ : List.map (fun p => ((pktSize p : ℕ) : ℚ)) (f :: (gs ++ [g])) =
        List.map (fun p => ((pktSize p : ℕ) : ℚ)) (f :: gs) ++
          [((pktSize g : ℕ) : ℚ)] := by simp
    refine ⟨commonUpdate g (existingIpUpdate L
      (logRun L s (f :: gs)).samples_size g w), ?_, ?_, ?_, ?_, ?_, ?_⟩
    · rw [hstep]
      have hself := log_lookup_self_some L (logRun L s (f :: gs)) g w hlook
      rw [hg] at hself
      exact hself
    · obtain ⟨h1, _, _, _, _, _⟩ := commonUpdate_core g _
      rw [h1, (existingIpUpdate_fields L _ g w).1, hcnt]
      simp
    · obtain ⟨_, _, _, h4, _, _⟩ := commonUpdate_core g _
      rw [h4, (existingIpUpdate_fields L _ g w).2.1, hmin, hmapN]
      simp [natMinList, List.foldl_append]
    · obtain ⟨_, _, _, _, h5, _⟩ := commonUpdate_core g _
      rw [h5, (existingIpUpdate_fields L _ g w).2.2.1, hmax, hmapN]
      simp [natMaxList, List.foldl_append]
    · obtain ⟨_, _, _, _, _, h6⟩ := commonUpdate_core g _
      rw [h6, (existingIpUpdate_fields L _ g w).2.2.2.1, havg, hcnt, hmapQ,
        meanQ_append]
      simp
    · rw [commonUpdate_aux_size,
        (existingIpUpdate_fields L _ g w).2.2.2.2, haux, havg, hcnt, hmapQ,
        welford_identity, meanQ_append]
      unfold Variance.var_aux_stateless
      simp

end Logger

/-- Counterexample for C4: the claim asserts the existing-IP branch
computes a wrong maximum for some packet sequence; in fact there is no
single-IP packet sequence for which the final `pkt_size_max` differs from
the true maximum of the packet sizes — `pkt_size_max` is kept when
`pkt_size < pkt_size_max` and overwritten otherwise (logger.py line 485),
which is the correct maximum recurrence. -/
theorem pkt_size_max_counterexample :
    ¬ ∃ (L : NumLib) (s : Logger) (f : PacketFeatures)
        (fs : List PacketFeatures) (w : IPWindow),
      assocGet s.window_current f.src_ip = none ∧
      (∀ g ∈ fs, g.src_ip = f.src_ip) ∧
      assocGet (Logger.logRun L s (f :: fs)).window_current f.src_ip =
        some w ∧
      w.stats.pkt_size_max ≠ natMaxList ((f :: fs).map pktSize) := by
  rintro ⟨L, s, f, fs, w, hfresh, hips, hw, hne⟩
  obtain ⟨w', hw', _, _, hmax, _, _⟩ :=
    Logger.logRun_single_ip L s f fs hfresh hips
  rw [hw] at hw'
  cases hw'
  exact hne hmax

/-- C4 (amended): in the existing-IP branch of `log` both comparisons are
correct: for every packet sequence of one IP within a window, the final
`pkt_size_min` equals the true minimum of the packet sizes AND the final
`pkt_size_max` equals the true maximum (the spec's reading of line 485 as
an inverted comparison is wrong — the guard `pkt_size < pkt_size_max`
keeps the maximum exactly when it should). -/
theorem pkt_size_minmax_correct (L : NumLib) (s : Logger)
    (f : PacketFeatures) (fs : List PacketFeatures)
    (hfresh : assocGet s.window_current f.src_ip = none)
    (hips : ∀ g ∈ fs, g.src_ip = f.src_ip) :
    ∃ w : IPWindow,
      assocGet (Logger.logRun L s (f :: fs)).window_current f.src_ip =
        some w ∧
      w.stats.pkt_size_min = natMinList ((f :: fs).map pktSize) ∧
      w.stats.pkt_size_max = natMaxList ((f :: fs).map pktSize) := by
  obtain ⟨w, hw, _, hmin, hmax, _, _⟩ :=
    Logger.logRun_single_ip L s f fs hfresh hips
  exact ⟨w, hw, hmin, hmax⟩

/-- Packet of size 100 used by the C4 witness. -/
def c4Pkt1 : PacketFeatures :=
  { time := 0, src_ip := "10.0.0.1", dst_ip := "10.0.0.2", proto_l4 := 6,
    src_port := 1, dst_port := 80, len_headers := 60, len_payload := 40,
    fragmented := false }

/-- Packet of size 30 used by the C4 witness. -/
def c4Pkt2 : PacketFeatures :=
  { time := 1, src_ip := "10.0.0.1", dst_ip := "10.0.0.2", proto_l4 := 6,
    src_port := 2, dst_port := 80, len_headers := 20, len_payload := 10,
    fragmented := false }

/-- Packet of size 150 used by the C4 witness. -/
def c4Pkt3 : PacketFeatures :=
  { time := 2, src_ip := "10.0.0.1", dst_ip := "10.0.0.2", proto_l4 := 6,
    src_port := 3, dst_port := 80, len_headers := 100, len_payload := 50,
    fragmented := false }

/-- Witness for the amended C4 at the concrete three-packet sequence with
sizes 100, 30, 150. -/
theorem pkt_size_minmax_correct_witness :
    (assocGet c5Init.window_current c4Pkt1.src_ip = none) ∧
    (∀ g ∈ [c4Pkt2, c4Pkt3], g.src_ip = c4Pkt1.src_ip) ∧
    ∃ w : IPWindow,
      assocGet (Logger.logRun testLib c5Init
        (c4Pkt1 :: [c4Pkt2, c4Pkt3])).window_current c4Pkt1.src_ip =
          some w ∧
      w.stats.pkt_size_min =
        natMinList ((c4Pkt1 :: [c4Pkt2, c4Pkt3]).map pktSize) ∧
      w.stats.pkt_size_max =
        natMaxList ((c4Pkt1 :: [c4Pkt2, c4Pkt3]).map pktSize) :=
  ⟨by decide, by decide,
    pkt_size_minmax_correct testLib c5Init c4Pkt1 [c4Pkt2, c4Pkt3]
      (by decide) (by decide)⟩

/-- C7 (amended): the Welford recurrence is algebraically exact — for a
packet sequence of one IP within a window, the value
`Variance.var_stateless(pkt_size_std_aux, pkts_total)`, whose square
root `math.sqrt` is stored as `pkt_size_std` at window close (logger.py
lines 153-154, `finalizeStats` here), equals the exact sample variance
`Σ(x_i − μ)² / (n − 1)` of the packet sizes for `n ≥ 2` and 0 for
`n = 1`, **when the per-packet stores are exact**.  The program stores
`pkt_size_avg`, `pkt_size_std_aux` and `pkt_size_std` in float32 (`'f4'`
in logtypes.py), and under those stores the claimed 1e-9 relative error
bound fails (relative error ≈ 1.09e-6 at packet sizes 100, 102, 103) —
see the float32-store model `f32Var` and its counterexample below. -/
theorem welford_variance_correct (L : NumLib) (s : Logger)
    (f : PacketFeatures) (fs : List PacketFeatures)
    (hfresh : assocGet s.window_current f.src_ip = none)
    (hips : ∀ g ∈ fs, g.src_ip = f.src_ip) :
    ∃ w : IPWindow,
      assocGet (Logger.logRun L s (f :: fs)).window_current f.src_ip =
        some w ∧
      (∀ cid, (Logger.finalizeStats L cid w).pkt_size_std =
        L.sqrt (Variance.var_stateless w.aux.pkt_size_std_aux
          w.stats.pkts_total)) ∧
      (fs ≠ [] →
        Variance.var_stateless w.aux.pkt_size_std_aux w.stats.pkts_total =
          sumSqDev ((f :: fs).map (fun g => ((pktSize g : ℕ) : ℚ)))
              (meanQ ((f :: fs).map (fun g => ((pktSize g : ℕ) : ℚ)))) /
            (((f :: fs).length : ℚ) - 1)) ∧
      (fs = [] →
        Variance.var_stateless w.aux.pkt_size_std_aux w.stats.pkts_total =
          0) := by
  obtain ⟨w, hw, hcnt, _, _, _, haux⟩ :=
    Logger.logRun_single_ip L s f fs hfresh hips
  refine ⟨w, hw, fun cid => rfl, ?_, ?_⟩
  · intro hne
    have hlen : 1 ≤ fs.length := by
      cases fs with
      | nil => exact absurd rfl hne
      | cons a l => simp
    unfold Variance.var_stateless
    rw [if_pos (by omega : w.stats.pkts_total > 1), haux, hcnt]
    simp [List.length_cons]
  · intro h0
    subst h0
    unfold Variance.var_stateless
    rw [hcnt]
    simp

/-- Packet of size 1 used by the C7 witness. -/
def c7Pkt1 : PacketFeatures :=
  { time := 0, src_ip := "10.0.0.7", dst_ip := "10.0.0.2", proto_l4 := 17,
    src_port := 1, dst_port := 53, len_headers := 1, len_payload := 0,
    fragmented := false }

/-- Packet of size 2 used by the C7 witness. -/
def c7Pkt2 : PacketFeatures :=
  { time := 1, src_ip := "10.0.0.7", dst_ip := "10.0.0.2", proto_l4 := 17,
    src_port := 2, dst_port := 53, len_headers := 1, len_payload := 1,
    fragmented := false }

/-- Packet of size 3 used by the C7 witness. -/
def c7Pkt3 : PacketFeatures :=
  { time := 2, src_ip := "10.0.0.7", dst_ip := "10.0.0.2", proto_l4 := 17,
    src_port := 3, dst_port := 53, len_headers := 2, len_payload := 1,
    fragmented := false }

/-- Witness for C7 at the concrete three-packet sequence with sizes
1, 2, 3. -/
theorem welford_variance_correct_witness :
    (assocGet c5Init.window_current c7Pkt1.src_ip = none) ∧
    (∀ g ∈ [c7Pkt2, c7Pkt3], g.src_ip = c7Pkt1.src_ip) ∧
    ∃ w : IPWindow,
      assocGet (Logger.logRun testLib c5Init
        (c7Pkt1 :: [c7Pkt2, c7Pkt3])).window_current c7Pkt1.src_ip =
          some w ∧
      (∀ cid, (Logger.finalizeStats testLib cid w).pkt_size_std =
        testLib.sqrt (Variance.var_stateless w.aux.pkt_size_std_aux
          w.stats.pkts_total)) ∧
      ([c7Pkt2, c7Pkt3] ≠ ([] : List PacketFeatures) →
        Variance.var_stateless w.aux.pkt_size_std_aux w.stats.pkts_total =
          sumSqDev ((c7Pkt1 :: [c7Pkt2, c7Pkt3]).map
              (fun g => ((pktSize g : ℕ) : ℚ)))
              (meanQ ((c7Pkt1 :: [c7Pkt2, c7Pkt3]).map
                (fun g => ((pktSize g : ℕ) : ℚ)))) /
            (((c7Pkt1 :: [c7Pkt2, c7Pkt3]).length : ℚ) - 1)) ∧
      ([c7Pkt2, c7Pkt3] = ([] : List PacketFeatures) →
        Variance.var_stateless w.aux.pkt_size_std_aux w.stats.pkts_total =
          0) :=
  ⟨by decide, by decide,
    welford_variance_correct testLib c5Init c7Pkt1 [c7Pkt2, c7Pkt3]
      (by decide) (by decide)⟩

namespace Logger

theorem processIp_ready_mono (L : NumLib) (ht hm pm cid : ℕ) (st : HistSt)
    (ip : String) (w : IPWindow) (ip' : String) (h : ip' ∈ st.ready) :
    ip' ∈ (processIp L ht hm pm cid st ip w).2.ready := by
  unfold processIp
  split
  · split
    · dsimp only
      split_ifs <;>
        first
          | exact readyInsert_mem_mono _ _ _ h
          | exact h
    · exact h
  · exact h

theorem processIp_hist_frame (L : NumLib) (ht hm pm cid : ℕ) (st : HistSt)
    (ip : String) (w : IPWindow) (ip' : String) (h : ip' ≠ ip) :
    assocGet (processIp L ht hm pm cid st ip w).2.hist ip' =
      assocGet st.hist ip' := by
  unfold processIp
  split
  · split
    · dsimp only
      split_ifs <;> exact assocGet_set_ne _ _ _ _ h
    · exact assocGet_set_ne _ _ _ _ h
  · rfl

theorem processIp_marks_ready (L : NumLib) (ht hm pm cid : ℕ) (st : HistSt)
    (ip : String) (w : IPWindow) (h : List WindowStats)
    (hq : w.stats.pkts_total ≥ pm)
    (hh : assocGet st.hist ip = some h)
    (hlen : (h ++ [finalizeStats L cid w]).length ≥ hm)
    (hwithin : ht > wrapSub64 (finalizeStats L cid w).tstamp_end
      ((h ++ [finalizeStats L cid w]).getD
        ((h ++ [finalizeStats L cid w]).length - hm)
        WindowStats.zero).tstamp_start) :
    (processIp L ht hm pm cid st ip w).1 = none ∧
    ip ∈ (processIp L ht hm pm cid st ip w).2.ready := by
  unfold processIp
  rw [if_pos hq]
  dsimp only
  rw [hh]
  dsimp only
  rw [if_pos hlen, if_pos hwithin]
  exact ⟨rfl, readyInsert_mem _ _⟩

theorem foldIps_ready_mono (L : NumLib) (ht hm pm cid : ℕ) (ip' : String) :
    ∀ (l : List (String × IPWindow)) (st : HistSt), ip' ∈ st.ready →
      ip' ∈ (foldIps L ht hm pm cid st l).2.ready := by
  intro l
  induction l with
  | nil => intro st h; exact h
  | cons p rest ih =>
    obtain ⟨ip, w⟩ := p
    intro st h
    have hmono := processIp_ready_mono L ht hm pm cid st ip w ip' h
    unfold foldIps
    cases hp : processIp L ht hm pm cid st ip w with
    | mk eOpt st' =>
      rw [hp] at hmono
      cases eOpt with
      | none => exact ih st' hmono
      | some e => exact hmono

theorem foldIps_marks_ready (L : NumLib) (ht hm pm cid : ℕ) :
    ∀ (l : List (String × IPWindow)) (st : HistSt) (ip : String)
      (w : IPWindow) (h : List WindowStats),
      (l.map Prod.fst).Nodup → (ip, w) ∈ l →
      assocGet st.hist ip = some h →
      w.stats.pkts_total ≥ pm →
      (h ++ [finalizeStats L cid w]).length ≥ hm →
      ht > wrapSub64 (finalizeStats L cid w).tstamp_end
        ((h ++ [finalizeStats L cid w]).getD
          ((h ++ [finalizeStats L cid w]).length - hm)
          WindowStats.zero).tstamp_start →
      (foldIps L ht hm pm cid st l).1 = none →
      ip ∈ (foldIps L ht hm pm cid st l).2.ready := by
  intro l
  induction l with
  | nil => intro st ip w h _ hmem; exact absurd hmem (List.not_mem_nil _)
  | cons p rest ih =>
    obtain ⟨ip0, w0⟩ := p
    intro st ip w h hnodup hmem hh hq hlen hwithin hfold
    rcases List.mem_cons.mp hmem with heq | hrest
    · injection heq with hip hw
      subst hip
      subst hw
      obtain ⟨hnone, hready⟩ :=
        processIp_marks_ready L ht hm pm cid st ip w h hq hh hlen hwithin
      unfold foldIps
      cases hp : processIp L ht hm pm cid st ip w with
      | mk eOpt st' =>
        rw [hp] at hnone hready
        cases eOpt with
        | none => exact foldIps_ready_mono L ht hm pm cid ip rest st' hready
        | some e => exact absurd hnone (by simp)
    · have hip0 : ip ≠ ip0 := by
        intro hcontra
        subst hcontra
        have : ip ∈ rest.map Prod.fst :=
          List.mem_map.mpr ⟨(ip, w), hrest, rfl⟩
        exact (List.nodup_cons.mp hnodup).1 this
      unfold foldIps at hfold ⊢
      cases hp : processIp L ht hm pm cid st ip0 w0 with
      | mk eOpt st' =>
        rw [hp] at hfold
        cases eOpt with
        | none =>
          have hh' : assocGet st'.hist ip = some h := by
            have := processIp_hist_frame L ht hm pm cid st ip0 w0 ip hip0
            rw [hp] at this
            rw [← this] at hh
            exact hh
          exact ih st' ip w h (List.nodup_cons.mp hnodup).2 hrest hh' hq
            hlen hwithin hfold
        | some e => exact absurd hfold (by simp)

end Logger

/-- C8 (amended): when `end_window` processes a qualifying window for an
IP that is already present in `window_history` (the append branch,
logger.py lines 165-175), and the appended list reaches at least
`history_min` entries with the boundary entry's `tstamp_start` within
`history_timeout` of the new window's `tstamp_end`, the IP is in
`ready_ips` after the call.  An IP absent from `window_history` takes the
`else` branch of line 182-183, which stores the first entry without any
readiness check, so with `history_min = 1` a fresh IP whose history
thereby reaches exactly `history_min` is NOT marked ready in that same
call — see the counterexample. -/
theorem end_window_marks_ready (L : NumLib) (s : Logger) (ip : String)
    (w : IPWindow) (h : List WindowStats)
    (hnodup : (s.window_current.map Prod.fst).Nodup)
    (hmem : (ip, w) ∈ s.window_current)
    (hh : assocGet s.window_history ip = some h)
    (hq : w.stats.pkts_total ≥ s.packets_min)
    (hlen : (h ++ [Logger.finalizeStats L s.window_id w]).length ≥
      s.history_min)
    (hwithin : s.history_timeout >
      wrapSub64 (Logger.finalizeStats L s.window_id w).tstamp_end
        ((h ++ [Logger.finalizeStats L s.window_id w]).getD
          ((h ++ [Logger.finalizeStats L s.window_id w]).length -
            s.history_min) WindowStats.zero).tstamp_start)
    (hok : (Logger.end_window L s).1 = none) :
    ip ∈ (Logger.end_window L s).2.ready_ips := by
  have hfold : (Logger.foldIps L s.history_timeout s.history_min
      s.packets_min s.window_id
      { hist := s.window_history, ready := s.ready_ips }
      s.window_current).1 = none := by
    unfold Logger.end_window at hok
    dsimp only at hok
    cases hr : Logger.foldIps L s.history_timeout s.history_min
        s.packets_min s.window_id
        { hist := s.window_history, ready := s.ready_ips }
        s.window_current with
    | mk eOpt st =>
      rw [hr] at hok
      cases eOpt with
      | none => rfl
      | some e => simp at hok
  have hmark := Logger.foldIps_marks_ready L s.history_timeout s.history_min
    s.packets_min s.window_id s.window_current
    { hist := s.window_history, ready := s.ready_ips } ip w h hnodup hmem
    hh hq hlen hwithin hfold
  unfold Logger.end_window
  dsimp only
  cases hr : Logger.foldIps L s.history_timeout s.history_min s.packets_min
      s.window_id { hist := s.window_history, ready := s.ready_ips }
      s.window_current with
  | mk eOpt st =>
    rw [hr] at hmark hfold
    cases eOpt with
    | none => exact hmark
    | some e => simp at hfold

/-- A qualifying window (1 packet, active from t=0 to t=10 ns) for the C1
failing input. -/
def c1Win : IPWindow :=
  { stats := { WindowStats.zero with
      pkts_total := 1, tstamp_start := 0, tstamp_end := 10 },
    aux := AuxData.zero, sport_samples := [0, 0],
    src_ports_hll := ["1"], connections_hll := ["110.0.0.280"] }

/-- The C1 failing input: `history_min = 1`, `history_timeout = 5` ns,
`packets_min = 1`, one prior history entry for `"10.0.0.1"`, and a
current window whose boundary entry (the appended one) is already
expired (`tstamp_end - tstamp_start = 10 ≥ 5`). -/
def c1State : Logger :=
  { history_timeout := 5, history_min := 1, packets_min := 1,
    samples_size := 2, window_current := [("10.0.0.1", c1Win)],
    window_id := 7, window_length := 1000000000,
    window_history := [("10.0.0.1", [WindowStats.zero])], ready_ips := [] }

/-- C1: at the failing input the expired-boundary trim with
`len(history) = 2 > history_min = 1` executes line 181,
`self._window_history[-self._history_min:]`, which indexes the TTLCache
with a slice and raises instead of trimming; the appended (untrimmed)
2-entry history persists.  The claim (and the spec's stated intent) says
the stale prefix is dropped to at most the last `history_min` entries and
`end_window` completes without raising. -/
theorem end_window_expired_trim_raises :
    (Logger.end_window testLib c1State).1 = some PyError.typeError ∧
    (assocGet (Logger.end_window testLib c1State).2.window_history
      "10.0.0.1").map List.length = some 2 ∧
    2 > c1State.history_min := by
  refine ⟨?_, ?_, ?_⟩ <;> decide

/-- A qualifying window (1 packet, active from t=0 to t=1 ns) used by the
C8 inputs. -/
def c8Win : IPWindow :=
  { stats := { WindowStats.zero with
      pkts_total := 1, tstamp_start := 0, tstamp_end := 1 },
    aux := AuxData.zero, sport_samples := [0, 0],
    src_ports_hll := ["1"], connections_hll := ["110.0.0.280"] }

/-- The C8 counterexample input: `history_min = 1`, a fresh IP (no
history entry) with a qualifying window well within the timeout. -/
def c8State : Logger :=
  { history_timeout := 1000, history_min := 1, packets_min := 1,
    samples_size := 2, window_current := [("10.0.0.1", c8Win)],
    window_id := 0, window_length := 1000000000, window_history := [],
    ready_ips := [] }

/-- Counterexample for C8: with `history_min = 1` and an IP not yet in
`window_history`, `end_window` stores the first history entry — the list
reaches exactly `history_min` entries and the boundary entry lies within
`history_timeout` of the new window's `tstamp_end` — yet the IP is not
inserted into `ready_ips` (the first-push branch, logger.py lines
182-183, performs no readiness check). -/
theorem end_window_first_push_not_ready :
    (Logger.end_window testLib c8State).1 = none ∧
    (assocGet (Logger.end_window testLib c8State).2.window_history
      "10.0.0.1").map List.length = some c8State.history_min ∧
    c8State.history_timeout >
      wrapSub64 (Logger.finalizeStats testLib c8State.window_id
        c8Win).tstamp_end
        (Logger.finalizeStats testLib c8State.window_id c8Win).tstamp_start ∧
    "10.0.0.1" ∉ (Logger.end_window testLib c8State).2.ready_ips := by
  refine ⟨?_, ?_, ?_, ?_⟩ <;> decide

/-- The C8 witness input: same window, but the IP already has one history
entry and `history_min = 2`, so the append branch runs the readiness
check. -/
def c8wState : Logger :=
  { history_timeout := 1000, history_min := 2, packets_min := 1,
    samples_size := 2, window_current := [("10.0.0.1", c8Win)],
    window_id := 1, window_length := 1000000000,
    window_history := [("10.0.0.1", [WindowStats.zero])], ready_ips := [] }

/-- Witness for the amended C8: at the concrete state the hypotheses hold
and the IP is marked ready by `end_window`. -/
theorem end_window_marks_ready_witness :
    ((c8wState.window_current.map Prod.fst).Nodup) ∧
    (("10.0.0.1", c8Win) ∈ c8wState.window_current) ∧
    (assocGet c8wState.window_history "10.0.0.1" =
      some [WindowStats.zero]) ∧
    ((Logger.end_window testLib c8wState).1 = none) ∧
    "10.0.0.1" ∈ (Logger.end_window testLib c8wState).2.ready_ips :=
  ⟨by decide, by decide, by decide, by decide,
    end_window_marks_ready testLib c8wState "10.0.0.1" c8Win
      [WindowStats.zero] (by decide) (by decide) (by decide) (by decide)
      (by decide) (by decide) (by decide)⟩

/-- A stored window entry with `window_id = 0`, used by the C2 inputs
(for a single-window suffix the first and last ids coincide). -/
def c2Entry : WindowStats :=
  { WindowStats.zero with window_id := 0, pkts_total := 15 }

/-- Counterexample for C2: on a single-window suffix (last window id equal
to the first), `_compute_window_span` takes the `else` branch and returns
`last + 2^32 - first + 1 = 2^32 + 1`, not `(last - first + 1) mod 2^32
= 1`; `interwindow_activity_ratio` divides the window count by this same
value, giving `1 / (2^32 + 1)` instead of `1`. -/
theorem window_span_counterexample :
    Logger.compute_window_span [c2Entry] = 2 ^ 32 + 1 ∧
    Logger.compute_window_span [c2Entry] ≠ 1 ∧
    (Logger.compute_interwindows testLib 1000000000
        [c2Entry]).interwindow_activity =
      1 / ((2 ^ 32 + 1 : ℕ) : ℚ) ∧
    (1 : ℚ) / ((2 ^ 32 + 1 : ℕ) : ℚ) ≠ 1 := by
  have hspan : Logger.compute_window_span [c2Entry] = 2 ^ 32 + 1 := by decide
  refine ⟨hspan, by decide, ?_, by norm_num⟩
  show ((List.length [c2Entry] : ℕ) : ℚ) /
      ((Logger.compute_window_span [c2Entry] : ℕ) : ℚ) =
    1 / ((2 ^ 32 + 1 : ℕ) : ℚ)
  rw [hspan]
  norm_num

/-- C2 (amended): for a nonempty suffix with stored (u4) window ids, the
computed span is always positive and congruent to `last − first + 1`
modulo 2^32; when the last id equals the first the span is `2^32 + 1`
(not 1); and `interwindow_activity_ratio` equals the window count divided
by exactly this computed span value. -/
theorem window_span_amended (stats : List WindowStats)
    (hfirst : (stats.getD 0 WindowStats.zero).window_id < 2 ^ 32)
    (hlast : (stats.getD (stats.length - 1) WindowStats.zero).window_id <
      2 ^ 32) :
    0 < Logger.compute_window_span stats ∧
    Int.ModEq (2 ^ 32) (Logger.compute_window_span stats)
      (((stats.getD (stats.length - 1) WindowStats.zero).window_id : ℤ) -
        ((stats.getD 0 WindowStats.zero).window_id : ℤ) + 1) ∧
    ((stats.getD (stats.length - 1) WindowStats.zero).window_id =
        (stats.getD 0 WindowStats.zero).window_id →
      Logger.compute_window_span stats = 2 ^ 32 + 1) ∧
    ∀ (L : NumLib) (window_length : ℕ),
      (Logger.compute_interwindows L window_length
          stats).interwindow_activity =
        (stats.length : ℚ) / (Logger.compute_window_span stats : ℚ) := by
  refine ⟨?_, ?_, ?_, ?_⟩
  · unfold Logger.compute_window_span
    dsimp only
    split_ifs <;> omega
  · unfold Logger.compute_window_span Int.ModEq
    dsimp only
    split_ifs <;> omega
  · intro heq
    unfold Logger.compute_window_span
    dsimp only
    split_ifs <;> omega
  · intro L window_length
    rfl

/-- Witness for the amended C2 at the single-entry suffix. -/
theorem window_span_amended_witness :
    (([c2Entry].getD 0 WindowStats.zero).window_id < 2 ^ 32) ∧
    (([c2Entry].getD (List.length [c2Entry] - 1)
      WindowStats.zero).window_id < 2 ^ 32) ∧
    (0 < Logger.compute_window_span [c2Entry] ∧
      (([c2Entry].getD (List.length [c2Entry] - 1)
          WindowStats.zero).window_id =
          ([c2Entry].getD 0 WindowStats.zero).window_id →
        Logger.compute_window_span [c2Entry] = 2 ^ 32 + 1)) :=
  ⟨by decide, by decide,
    (window_span_amended [c2Entry] (by decide) (by decide)).1,
    (window_span_amended [c2Entry] (by decide) (by decide)).2.2.1⟩

theorem npDiv_of_pos_zero (a : ℚ) (ha : 0 < a) : npDiv a 0 = NpFloat.inf := by
  unfold npDiv
  rw [if_neg (by simp), if_pos ha]

theorem npDiv_of_ne_zero (a b : ℚ) (hb : b ≠ 0) :
    npDiv a b = NpFloat.fin (a / b) := by
  unfold npDiv
  rw [if_pos hb]

theorem nsec2sec_zero : nsec2sec 0 = 0 := by
  norm_num [nsec2sec]

theorem nsec2sec_ne_zero (n : ℕ) (hn : n ≠ 0) : nsec2sec n ≠ 0 := by
  unfold nsec2sec
  exact div_ne_zero (Nat.cast_ne_zero.mpr hn) (by norm_num)

/-- The elapsed nanoseconds of a window suffix as read by the rate
computation of `_summarize_windows` (lines 402-405): last row's
`tstamp_end` minus first row's `tstamp_start`, a wrapping u8
subtraction. -/
def elapsedNs (stats : List WindowStats) : ℕ :=
  wrapSub64 (stats.getD (stats.length - 1) WindowStats.zero).tstamp_end
    (stats.getD 0 WindowStats.zero).tstamp_start

/-- A stored window entry whose window spans zero time
(`tstamp_start = tstamp_end = 5`), with 15 packets and 1500 bytes. -/
def c3Entry : WindowStats :=
  { WindowStats.zero with
    pkts_total := 15, bytes_total := 1500, tstamp_start := 5,
    tstamp_end := 5 }

/-- Counterexample for C3: on a suffix with zero elapsed time the rate
computation divides by zero anyway (there is no guard in lines 398-405):
both rates come out as numpy +inf, not 0. -/
theorem rate_zero_elapsed_counterexample :
    (Logger.summarize_windows "10.0.0.1" [c3Entry]).pkt_rate =
      NpFloat.inf ∧
    (Logger.summarize_windows "10.0.0.1" [c3Entry]).byte_rate =
      NpFloat.inf ∧
    NpFloat.inf ≠ NpFloat.fin 0 := by
  have hz : elapsedNs [c3Entry] = 0 := by decide
  refine ⟨?_, ?_, by decide⟩
  · show npDiv (([c3Entry].map (fun w => (w.pkts_total : ℚ))).sum)
      (nsec2sec (elapsedNs [c3Entry])) = NpFloat.inf
    rw [hz, nsec2sec_zero]
    exact npDiv_of_pos_zero _ (by norm_num [c3Entry])
  · show npDiv (([c3Entry].map (fun w => (w.bytes_total : ℚ))).sum)
      (nsec2sec (elapsedNs [c3Entry])) = NpFloat.inf
    rw [hz, nsec2sec_zero]
    exact npDiv_of_pos_zero _ (by norm_num [c3Entry])

/-- C3 (amended): the rate computation of `_summarize_windows` performs an
unguarded float division by the elapsed seconds.  With zero elapsed time
and a positive packet (resp. byte) sum the result is numpy +inf — not 0
as the claim states; with nonzero elapsed time it is the finite quotient. -/
theorem rate_unguarded (ip : String) (stats : List WindowStats) :
    (elapsedNs stats = 0 →
      (0 < (stats.map (fun w => (w.pkts_total : ℚ))).sum →
        (Logger.summarize_windows ip stats).pkt_rate = NpFloat.inf ∧
        (Logger.summarize_windows ip stats).pkt_rate ≠ NpFloat.fin 0) ∧
      (0 < (stats.map (fun w => (w.bytes_total : ℚ))).sum →
        (Logger.summarize_windows ip stats).byte_rate = NpFloat.inf)) ∧
    (elapsedNs stats ≠ 0 →
      (Logger.summarize_windows ip stats).pkt_rate =
        NpFloat.fin ((stats.map (fun w => (w.pkts_total : ℚ))).sum /
          nsec2sec (elapsedNs stats))) := by
  have hpkt : (Logger.summarize_windows ip stats).pkt_rate =
      npDiv ((stats.map (fun w => (w.pkts_total : ℚ))).sum)
        (nsec2sec (elapsedNs stats)) := rfl
  have hbyte : (Logger.summarize_windows ip stats).byte_rate =
      npDiv ((stats.map (fun w => (w.bytes_total : ℚ))).sum)
        (nsec2sec (elapsedNs stats)) := rfl
  constructor
  · intro hz
    constructor
    · intro hpos
      rw [hpkt, hz, nsec2sec_zero]
      exact ⟨npDiv_of_pos_zero _ hpos, by rw [npDiv_of_pos_zero _ hpos]; simp⟩
    · intro hpos
      rw [hbyte, hz, nsec2sec_zero]
      exact npDiv_of_pos_zero _ hpos
  · intro hnz
    rw [hpkt]
    exact npDiv_of_ne_zero _ _ (nsec2sec_ne_zero _ hnz)

/-- Witness for the amended C3 at the concrete zero-elapsed suffix. -/
theorem rate_unguarded_witness :
    (elapsedNs [c3Entry] = 0) ∧
    (0 < ([c3Entry].map (fun w => (w.pkts_total : ℚ))).sum) ∧
    ((Logger.summarize_windows "10.0.0.1" [c3Entry]).pkt_rate =
      NpFloat.inf ∧
    (Logger.summarize_windows "10.0.0.1" [c3Entry]).pkt_rate ≠
      NpFloat.fin 0) :=
  ⟨by decide, by norm_num [c3Entry],
    ((rate_unguarded "10.0.0.1" [c3Entry]).1 (by decide)).1
      (by norm_num [c3Entry])⟩

/-- C6: for every IP with a history entry, calling `retrieve_statistics`
twice with the same arguments and no intervening mutation: with
`delete_after = true` (the default) the second call returns `None` (the
first call deleted the history); with `delete_after = false` both calls
produce the identical result — the computation is a pure function of the
unchanged history list and configuration (the only mutation, removing the
IP from `ready_ips`, does not feed into the result). -/
theorem retrieve_statistics_twice (L : NumLib) (s : Logger) (ip : String)
    (current_time : Option ℕ) (compute_interwindow_stats : Bool)
    (window_cnt : Option ℕ) (dump_windows : Bool)
    (hist : List WindowStats)
    (hh : assocGet s.window_history ip = some hist) :
    ((Logger.retrieve_statistics L
        (Logger.retrieve_statistics L s ip current_time
          compute_interwindow_stats window_cnt dump_windows true).2
        ip current_time compute_interwindow_stats window_cnt dump_windows
        true).1 = Except.ok none) ∧
    ((Logger.retrieve_statistics L
        (Logger.retrieve_statistics L s ip current_time
          compute_interwindow_stats window_cnt dump_windows false).2
        ip current_time compute_interwindow_stats window_cnt dump_windows
        false).1 =
      (Logger.retrieve_statistics L s ip current_time
        compute_interwindow_stats window_cnt dump_windows false).1) := by
  constructor
  · unfold Logger.retrieve_statistics
    rw [hh]
    dsimp only
    rw [if_pos rfl, assocGet_erase_self]
  · unfold Logger.retrieve_statistics
    rw [hh]
    dsimp only
    rw [if_neg (by simp)]
    rw [hh]

/-- A concrete state with one history entry, for the C6 witness. -/
def c6State : Logger :=
  { history_timeout := 120000000000, history_min := 1, packets_min := 1,
    samples_size := 2, window_current := [], window_id := 3,
    window_length := 1000000000,
    window_history := [("10.0.0.1", [c3Entry])], ready_ips := ["10.0.0.1"] }

/-- Witness for C6 at a concrete state and argument tuple. -/
theorem retrieve_statistics_twice_witness :
    (assocGet c6State.window_history "10.0.0.1" = some [c3Entry]) ∧
    ((Logger.retrieve_statistics testLib
        (Logger.retrieve_statistics testLib c6State "10.0.0.1" none true
          none false true).2
        "10.0.0.1" none true none false true).1 = Except.ok none) ∧
    ((Logger.retrieve_statistics testLib
        (Logger.retrieve_statistics testLib c6State "10.0.0.1" none true
          none false false).2
        "10.0.0.1" none true none false false).1 =
      (Logger.retrieve_statistics testLib c6State "10.0.0.1" none true
        none false false).1) :=
  ⟨rfl,
    (retrieve_statistics_twice testLib c6State "10.0.0.1" none true none
      false [c3Entry] rfl).1,
    (retrieve_statistics_twice testLib c6State "10.0.0.1" none true none
      false [c3Entry] rfl).2⟩

/-- Round to nearest integer, ties to even: the rounding of IEEE-754
binary arithmetic. -/
def rne (x : ℚ) : ℤ :=
  if x - ⌊x⌋ < 1 / 2 then ⌊x⌋
  else if x - ⌊x⌋ > 1 / 2 then ⌊x⌋ + 1
  else if ⌊x⌋ % 2 = 0 then ⌊x⌋ else ⌊x⌋ + 1

/-- The exact value stored by a numpy `'f4'` (IEEE-754 binary32) field for
a moderate-magnitude rational: round to nearest with 24 significand bits,
ties to even.  Overflow and subnormals are outside the range of the
values this development evaluates it on. -/
def fl32 (q : ℚ) : ℚ :=
  if q = 0 then 0
  else (rne (q * 2 ^ ((23 : ℤ) - Int.log 2 |q|)) : ℚ) *
    2 ^ (Int.log 2 |q| - 23)

theorem rne_eq_of (x : ℚ) (f : ℤ) (h1 : (f : ℚ) ≤ x)
    (h2 : x - f < 1 / 2) : rne x = f := by
  have hfl : ⌊x⌋ = f := Int.floor_eq_iff.mpr ⟨h1, by linarith⟩
  unfold rne
  rw [hfl, if_pos h2]

theorem fl32_eval (q : ℚ) (e m : ℤ) (hq : q ≠ 0)
    (he : Int.log 2 |q| = e) (hm : rne (q * 2 ^ ((23 : ℤ) - e)) = m) :
    fl32 q = (m : ℚ) * 2 ^ (e - 23) := by
  unfold fl32
  rw [if_neg hq, he, hm]

theorem int_log2_eval (q : ℚ) (e : ℕ) (h1 : 1 ≤ q)
    (hlow : ((2 ^ e : ℕ) : ℚ) ≤ q) (hhigh : q < ((2 ^ (e + 1) : ℕ) : ℚ)) :
    Int.log 2 q = (e : ℤ) := by
  rw [Int.log_of_one_le_right _ h1]
  have hfl1 : 2 ^ e ≤ ⌊q⌋₊ := Nat.le_floor hlow
  have hfl2 : ⌊q⌋₊ < 2 ^ (e + 1) := by
    rw [Nat.floor_lt (by linarith : (0 : ℚ) ≤ q)]
    exact hhigh
  exact_mod_cast congrArg Nat.cast
    (Nat.log_eq_of_pow_le_of_lt_pow hfl1 hfl2)

theorem fl32_100 : fl32 100 = 100 := by
  have he : Int.log 2 |(100 : ℚ)| = 6 := by
    rw [abs_of_pos (by norm_num : (0 : ℚ) < 100)]
    exact_mod_cast int_log2_eval 100 6 (by norm_num) (by norm_num)
      (by norm_num)
  rw [fl32_eval 100 6 13107200 (by norm_num) he
    (rne_eq_of _ _ (by norm_num) (by norm_num))]
  norm_num

theorem fl32_101 : fl32 101 = 101 := by
  have he : Int.log 2 |(101 : ℚ)| = 6 := by
    rw [abs_of_pos (by norm_num : (0 : ℚ) < 101)]
    exact_mod_cast int_log2_eval 101 6 (by norm_num) (by norm_num)
      (by norm_num)
  rw [fl32_eval 101 6 13238272 (by norm_num) he
    (rne_eq_of _ _ (by norm_num) (by norm_num))]
  norm_num

theorem fl32_two : fl32 2 = 2 := by
  have he : Int.log 2 |(2 : ℚ)| = 1 := by
    rw [abs_of_pos (by norm_num : (0 : ℚ) < 2)]
    exact_mod_cast int_log2_eval 2 1 (by norm_num) (by norm_num)
      (by norm_num)
  rw [fl32_eval 2 1 8388608 (by norm_num) he
    (rne_eq_of _ _ (by norm_num) (by norm_num))]
  norm_num

/-- The float32 store of the exact third running mean `305/3` of the
sizes 100, 102, 103: the fraction `1/3` rounds down to the
24-bit-significand value `13325653 * 2^-17`. -/
theorem fl32_third_mean : fl32 (305 / 3) = 13325653 / 131072 := by
  have he : Int.log 2 |(305 / 3 : ℚ)| = 6 := by
    rw [abs_of_pos (by norm_num : (0 : ℚ) < 305 / 3)]
    exact_mod_cast int_log2_eval (305 / 3) 6 (by norm_num) (by norm_num)
      (by norm_num)
  rw [fl32_eval (305 / 3) 6 13325653 (by norm_num) he
    (rne_eq_of _ _ (by norm_num) (by norm_num))]
  norm_num

/-- The third Welford auxiliary `305835/65536` is exactly representable
in float32 (significand `9786720 < 2^24`), so its store is exact. -/
theorem fl32_third_aux : fl32 (305835 / 65536) = 305835 / 65536 := by
  have he : Int.log 2 |(305835 / 65536 : ℚ)| = 2 := by
    rw [abs_of_pos (by norm_num : (0 : ℚ) < 305835 / 65536)]
    exact_mod_cast int_log2_eval (305835 / 65536) 2 (by norm_num)
      (by norm_num) (by norm_num)
  rw [fl32_eval (305835 / 65536) 2 9786720 (by norm_num) he
    (rne_eq_of _ _ (by norm_num) (by norm_num))]
  norm_num

/-- The packet-size mean/Welford recurrence of `_log_new_ip` /
`_log_existing_ip` with the numpy `'f4'` (float32) stores of logtypes.py
made explicit: `pkt_size_avg` (dtype line 30) is stored rounded after the
line-486 update, and `pkt_size_std_aux` (dtype line 49) after the
line-495 update; each next step reads the rounded values back.  The
state is `(pkts_total, stored pkt_size_avg, stored pkt_size_std_aux)`.
The intermediate float64 arithmetic between the stores is modelled
exactly; at the values this development evaluates, every float64
intermediate is either exact or its sub-1e-15 error is absorbed by the
much coarser float32 store, so the stored values coincide with the real
program's. -/
def f32RunAux : List ℚ → ℕ × ℚ × ℚ → ℕ × ℚ × ℚ
  | [], st => st
  | x :: xs, (cnt, avg, aux) =>
    let cnt' := cnt + 1
    let avg' := fl32 (Average.avg_stateless x avg cnt')
    let aux' := fl32 (Variance.var_aux_stateless x aux avg avg')
    f32RunAux xs (cnt', avg', aux')

/-- The value whose square root `end_window` would store as
`pkt_size_std` (logger.py lines 153-154), under the float32-store model
of the per-packet recurrence: `Variance.var_stateless` applied to the
stored auxiliary and the packet count, for the first packet `x1` (whose
size initialises the stored `pkt_size_avg`, aux 0) followed by `xs`. -/
def f32Var (x1 : ℚ) (xs : List ℚ) : ℚ :=
  let st := f32RunAux xs (1, fl32 x1, 0)
  Variance.var_stateless st.2.2 st.1

theorem f32Var_eval : f32Var 100 [102, 103] = 305835 / 131072 := by
  have ha2 : Average.avg_stateless 102 100 (1 + 1) = 101 := by
    norm_num [Average.avg_stateless]
  have hx2 : Variance.var_aux_stateless 102 0 100 101 = 2 := by
    norm_num [Variance.var_aux_stateless]
  have ha3 : Average.avg_stateless 103 101 (1 + 1 + 1) = 305 / 3 := by
    norm_num [Average.avg_stateless]
  have hx3 : Variance.var_aux_stateless 103 2 101 (13325653 / 131072) =
      305835 / 65536 := by
    norm_num [Variance.var_aux_stateless]
  unfold f32Var
  simp only [f32RunAux, fl32_100, ha2, fl32_101, hx2, fl32_two, ha3,
    fl32_third_mean, hx3, fl32_third_aux]
  norm_num [Variance.var_stateless]

/-- Counterexample for C7: under the float32 (`'f4'`) stores of
`pkt_size_avg` and `pkt_size_std_aux` that the source's per-packet
recurrence reads back through, the packet sizes 100, 102, 103 yield a
close-of-window variance of `305835/131072 ≈ 2.3333359` versus the exact
sample variance `7/3 ≈ 2.3333333`: a relative error of `1/917504 ≈
1.09e-6`, more than a thousand times the claimed 1e-9 bound (the
absolute deviation `1/393216` exceeds `1e-9 * 7/3`).  The further
float32 store of `pkt_size_std` itself only adds to the error. -/
theorem welford_f32_counterexample :
    f32Var 100 [102, 103] = 305835 / 131072 ∧
    sumSqDev [(100 : ℚ), 102, 103] (meanQ [(100 : ℚ), 102, 103]) /
      ((3 : ℚ) - 1) = 7 / 3 ∧
    |f32Var 100 [102, 103] -
        sumSqDev [(100 : ℚ), 102, 103] (meanQ [(100 : ℚ), 102, 103]) /
          ((3 : ℚ) - 1)| >
      1 / 1000000000 *
        (sumSqDev [(100 : ℚ), 102, 103] (meanQ [(100 : ℚ), 102, 103]) /
          ((3 : ℚ) - 1)) := by
  have h2 : sumSqDev [(100 : ℚ), 102, 103] (meanQ [(100 : ℚ), 102, 103]) /
      ((3 : ℚ) - 1) = 7 / 3 := by
    norm_num [sumSqDev, meanQ, List.sum_cons, List.sum_nil, List.map_cons,
      List.map_nil, List.length_cons, List.length_nil]
  refine ⟨f32Var_eval, h2, ?_⟩
  rw [f32Var_eval, h2, abs_of_pos (by norm_num)]
  norm_num
